import Mathlib

/-!
Verification development for the ReadyTraderGo AutoTrader
(src/autotrader.py).  The trading core is embedded shallowly:

* Python ints become Int (Python ints are unbounded, so no modular
  arithmetic is needed); Python floats become Rat.  All float values
  produced by the trader are results of field operations on integer
  inputs, so exact rational arithmetic is the intended real-number
  semantics of the code.  Square roots (inside scipy linregress r and
  stderr, and statistics.stdev) are never used directly by the trader:
  every use is an order comparison against another quantity, so the
  embedding carries the squares (rSq, stderrSq, stdevSq) and compares
  via the monotonicity of squaring on nonnegatives.
* Python division by zero raises ZeroDivisionError; the two reachable
  division sites whose denominator can be zero (the level 1..3 volume
  sums at lines 97-98 and the average loss at line 140) are modelled
  with an explicit Except error.  Every other division site has a
  denominator that is provably nonzero under the guards the code
  itself establishes (max(_,1), literal 10, min(len,5) with len >= 1,
  n-1 and n-2 under length guards, ssxm > 0 for n >= 2).
* The asyncio event loop delivers one inbound event at a time; the
  session is a fold of the per-event handlers over an event list, and
  outbound send_* calls are collected as a command list.
-/

namespace AutoTrader

/-- Error raised by a Python division with zero denominator. -/
inductive Err
  | divByZero
deriving DecidableEq

/-- Decidable equality on Except, so that concrete runs of the fallible
handlers can be settled by decide. -/
instance {ε α : Type} [DecidableEq ε] [DecidableEq α] : DecidableEq (Except ε α) := fun x y =>
  match x, y with
  | .ok a, .ok b =>
      if h : a = b then .isTrue (by rw [h]) else .isFalse (by simp [h])
  | .error a, .error b =>
      if h : a = b then .isTrue (by rw [h]) else .isFalse (by simp [h])
  | .ok _, .error _ => .isFalse (by simp)
  | .error _, .ok _ => .isFalse (by simp)

/-- Line 29. -/
def LOT_SIZE : Int := 10

/-- Line 30. -/
def POSITION_LIMIT : Int := 93

/-- Line 31. -/
def TICK_SIZE_IN_CENTS : Int := 100

/-- Modelled from the spec: the Ready Trader Go framework (external
dependency, not under src/) exports MINIMUM_BID = 1; the spec calls the
derived values the nearest valid tick bounds for hedge safety prices. -/
def MINIMUM_BID : Int := 1

/-- Modelled from the spec: the Ready Trader Go framework (external
dependency, not under src/) exports MAXIMUM_ASK = 2^31 - 1. -/
def MAXIMUM_ASK : Int := 2147483647

/-- Line 32: (MINIMUM_BID + TICK) // TICK * TICK (operands positive, so
truncating and flooring division agree). -/
def MIN_BID_NEAREST_TICK : Int :=
  (MINIMUM_BID + TICK_SIZE_IN_CENTS) / TICK_SIZE_IN_CENTS * TICK_SIZE_IN_CENTS

/-- Line 33: MAXIMUM_ASK // TICK * TICK. -/
def MAX_ASK_NEAREST_TICK : Int :=
  MAXIMUM_ASK / TICK_SIZE_IN_CENTS * TICK_SIZE_IN_CENTS

/-- Modelled from the Ready Trader Go framework: Instrument.FUTURE = 0. -/
def Instrument.FUTURE : Nat := 0

/-- Order side; Side.SELL is also named Side.ASK in the framework and
Side.BUY is also named Side.BID. -/
inductive Side
  | buy
  | sell
deriving DecidableEq

/-- Order lifespan; the trader only ever uses GOOD_FOR_DAY. -/
inductive Lifespan
  | goodForDay
deriving DecidableEq

/-- Outbound commands to the market gateway (send_insert_order,
send_cancel_order, send_hedge_order). -/
inductive Command
  | insertOrder (id : Nat) (side : Side) (price : Int) (volume : Int) (lifespan : Lifespan)
  | cancelOrder (id : Nat)
  | hedgeOrder (id : Nat) (side : Side) (price : Int) (volume : Int)
deriving DecidableEq

/-- Session state of the AutoTrader (lines 43-57).  nextOrderId is the
next value the generator itertools.count(1) will yield. -/
structure TraderState where
  nextOrderId : Nat
  bids : List Nat
  asks : List Nat
  ask_id : Nat
  ask_price : Int
  bid_id : Nat
  bid_price : Int
  position : Int
  history_vbid : List Int
  history_vask : List Int
  history_mid : List Int
  gain : ℚ
  loss : ℚ
  bid_ordered : Int
  ask_ordered : Int
deriving DecidableEq

/-- Python list indexing with negative indices allowed; out-of-range
reads return 0 (every read in the trader is in range under the guards
in force, so the default is never observable). -/
def pyGet (l : List Int) (i : Int) : Int :=
  if i < 0 then l.getD ((l.length : Int) + i).toNat 0 else l.getD i.toNat 0

/-- Python slice l[-n:]: the last n elements (all of l when shorter). -/
def lastN (n : Nat) (l : List Int) : List Int := l.drop (l.length - n)

/-- Python max on machine integers. -/
def pyMax (a b : Int) : Int := if a < b then b else a

/-- Python min on machine integers. -/
def pyMin (a b : Int) : Int := if b < a then b else a

/-- Python max on lengths. -/
def pyMaxN (a b : Nat) : Nat := if a < b then b else a

/-- Python min on lengths. -/
def pyMinN (a b : Nat) : Nat := if b < a then b else a

/-- Python abs on machine integers. -/
def pyAbs (d : Int) : Int := (d.natAbs : Int)

/-- Python set.add on a duplicate-free list model of a set of order
ids (sets are modelled as the list of elements in insertion order;
the code only ever adds, discards, tests membership and takes len,
so a duplicate-free list is a faithful model). -/
def pyAdd (i : Nat) (l : List Nat) : List Nat := if i ∈ l then l else l ++ [i]

/-- Python set.discard on the list model of a set. -/
def pyDiscard (i : Nat) (l : List Nat) : List Nat := l.filter (fun j => j != i)

/-! The four field operations on the rationals are written through
mkRat below (qi, qadd, qsub, qmul, qinv, qdiv, qsum, sq).  They are
exactly the field operations of ℚ - the bridge theorems qi_eq, qadd_eq,
qsub_eq, qmul_eq, qinv_eq, qdiv_eq, qsum_eq and sq_eq below prove it -
but unlike Rat.add, Rat.sub, Rat.mul and Rat.inv they are not
irreducible, so concrete runs of the trader can be settled by decide
without unfolding the whole algebraic instance tower. -/

/-- An integer as a rational. -/
def qi (n : Int) : ℚ := (n : ℚ)

/-- Rational addition through mkRat. -/
def qadd (a b : ℚ) : ℚ := mkRat (a.num * b.den + b.num * a.den) (a.den * b.den)

/-- Rational subtraction through mkRat. -/
def qsub (a b : ℚ) : ℚ := mkRat (a.num * b.den - b.num * a.den) (a.den * b.den)

/-- Rational multiplication through mkRat. -/
def qmul (a b : ℚ) : ℚ := mkRat (a.num * b.num) (a.den * b.den)

/-- Rational inverse through mkRat (0 for 0, like Rat.inv). -/
def qinv (a : ℚ) : ℚ :=
  if 0 ≤ a.num then mkRat (a.den : Int) a.num.toNat else mkRat (-(a.den : Int)) (-a.num).toNat

/-- Rational division through mkRat. -/
def qdiv (a b : ℚ) : ℚ := qmul a (qinv b)

/-- Sum of a list of rationals (Python sum: left fold from 0). -/
def qsum (l : List ℚ) : ℚ := l.foldl qadd (qi 0)

/-- Squaring on the rationals. -/
def sq (q : ℚ) : ℚ := qmul q q

/-- The length of a list as a rational. -/
def qlen {α : Type} (l : List α) : ℚ := qi (l.length : Int)

/-- Initial state built by __init__ (lines 43-57): counter at 1, empty
tracking sets, zero ids/prices/position, empty histories, gain and loss
at the sentinel -1, zero pending volumes. -/
def initState : TraderState :=
  { nextOrderId := 1
    bids := []
    asks := []
    ask_id := 0
    ask_price := 0
    bid_id := 0
    bid_price := 0
    position := 0
    history_vbid := []
    history_vask := []
    history_mid := []
    gain := qi (-1)
    loss := qi (-1)
    bid_ordered := 0
    ask_ordered := 0 }

/-- History truncation (lines 113-116): keep the last 15 samples. -/
def truncHist (l : List Int) : List Int := if l.length > 15 then lastN 15 l else l

/-- Lines 92-98: volume weighted price over book levels 1..3,
sum(price*volume) // sum(volume); a zero volume sum raises
ZeroDivisionError in Python (the bid_prices[0] != 0 guard at lines
97-98 does not protect the denominator). -/
def vwap3 (prices volumes : List Int) : Except Err Int :=
  let num := pyGet prices 1 * pyGet volumes 1 + pyGet prices 2 * pyGet volumes 2
      + pyGet prices 3 * pyGet volumes 3
  let den := pyGet volumes 1 + pyGet volumes 2 + pyGet volumes 3
  if den = 0 then .error .divByZero else .ok (Int.fdiv num den)

/-- Result of scipy.stats.linregress with x = 0, ..., n-1 (external
dependency, modelled from its documented ordinary least squares
computation).  r and the slope standard error are only ever compared
against other quantities by the trader, so their squares are carried:
rSq = r^2 and stderrSq = stderr^2; stderrSq = none encodes the infinite
stderr scipy returns for exactly two points with distinct y values. -/
structure LinReg where
  slope : ℚ
  intercept : ℚ
  rSq : ℚ
  stderrSq : Option ℚ
deriving DecidableEq

/-- The all-zero statistics the trader starts from at lines 163-164,
overwritten only when the series has at least 2 samples. -/
def LinReg.zero : LinReg := ⟨qi 0, qi 0, qi 0, some (qi 0)⟩

/-- Modelled from scipy.stats.linregress over x = 0..n-1, y = ys: means,
biased covariance moments, slope = ssxym/ssxm, intercept through the
mean point, r = 0 when ssxm*ssym = 0, else ssxym/sqrt(ssxm*ssym)
(carried squared), stderr = sqrt((1 - r^2)*ssym/ssxm/(n-2)) for n > 2
(carried squared), and the scipy n = 2 special case (0 for equal ys,
infinity otherwise).  Callers guarantee n >= 2, so ssxm > 0. -/
def linregress (ys : List Int) : LinReg :=
  let n : ℚ := qlen ys
  let xs : List ℚ := (List.range ys.length).map (fun i => qi (i : Int))
  let xmean : ℚ := qdiv (qsub n (qi 1)) (qi 2)
  let ymean : ℚ := qdiv (qsum (ys.map (fun y => qi y))) n
  let ssxm : ℚ := qdiv (qsum (xs.map (fun x => sq (qsub x xmean)))) n
  let ssym : ℚ := qdiv (qsum (ys.map (fun y => sq (qsub (qi y) ymean)))) n
  let ssxym : ℚ := qdiv (qsum ((xs.zip ys).map
    (fun p => qmul (qsub p.1 xmean) (qsub (qi p.2) ymean)))) n
  let slope := qdiv ssxym ssxm
  let intercept := qsub ymean (qmul slope xmean)
  let rSq : ℚ := if qmul ssxm ssym = qi 0 then qi 0 else qdiv (sq ssxym) (qmul ssxm ssym)
  let stderrSq : Option ℚ :=
    if ys.length = 2 then
      if pyGet ys 0 = pyGet ys 1 then some (qi 0) else none
    else
      some (qdiv (qdiv (qmul (qsub (qi 1) rSq) ssym) ssxm) (qsub n (qi 2)))
  ⟨slope, intercept, rSq, stderrSq⟩

/-- Modelled from statistics.stdev (external dependency): the square of
the sample standard deviation, sum((y - mean)^2)/(n - 1); callers
guarantee n >= 2. -/
def stdevSq (l : List Int) : ℚ :=
  let n : ℚ := qlen l
  let m : ℚ := qdiv (qsum (l.map (fun y => qi y))) n
  qdiv (qsum (l.map (fun y => sq (qsub (qi y) m)))) (qsub n (qi 1))

/-- Decides sqrt s2 <= d for s2 >= 0: equivalent to 0 <= d and s2 <= d^2
by monotonicity of squaring on nonnegatives.  Used to express the
deviation comparisons of lines 197-206 without irrational numbers. -/
def sqrtLeB (s2 d : ℚ) : Bool := decide (qi 0 ≤ d ∧ s2 ≤ sq d)

/-- Lines 109-145: RSI state update.  histMid is the mid history after
appending the new vmid (its last element) and truncating to 15.
Returns the new (gain, loss), the rsi value (sentinel -1 when fewer
than 11 samples, exactly as in the code), and the over bought / over
sold flags.  The seed branch (gain = -1) averages the differences of
vmid against each of the 10 preceding samples; the smoothing branch
uses the single latest delta with weight 9:1.  A zero average loss
makes line 140 raise ZeroDivisionError. -/
def rsiUpdate (gain loss : ℚ) (histMid : List Int) (vmid : Int) :
    Except Err (ℚ × ℚ × ℚ × Bool × Bool) :=
  if histMid.length > 10 then
    let gl : ℚ × ℚ :=
      if gain = qi (-1) then
        -- for i in range(-11, -1): diff = vmid - history_mid[i]
        let idxs : List Int := [-11, -10, -9, -8, -7, -6, -5, -4, -3, -2]
        let gtotal := (idxs.map (fun i =>
          let d := vmid - pyGet histMid i
          if d > 0 then d else 0)).sum
        let ltotal := (idxs.map (fun i =>
          let d := vmid - pyGet histMid i
          if d > 0 then 0 else pyAbs d)).sum
        (qdiv (qi gtotal) (qi 10), qdiv (qi ltotal) (qi 10))
      else
        let diff := vmid - pyGet histMid (-2)
        let g : ℚ := if diff > 0 then qi diff else qi 0
        let l : ℚ := if diff > 0 then qi 0 else qi (pyAbs diff)
        (qdiv (qadd (qmul gain (qi 9)) g) (qi 10), qdiv (qadd (qmul loss (qi 9)) l) (qi 10))
    if gl.2 = qi 0 then .error .divByZero
    else
      let rs := qdiv gl.1 gl.2
      let rsi := qsub (qi 100) (qdiv (qi 100) (qadd (qi 1) rs))
      .ok (gl.1, gl.2, rsi, decide (rsi > qi 75), decide (¬rsi > qi 75 ∧ rsi < qi 25))
  else .ok (gain, loss, qi (-1), false, false)

/-- Line 185 for the bid: round down to the tick and clamp by
max(_, 0) then min(_, touch + tick); target 0 when the touch is 0. -/
def bidTarget (check_bid : ℚ) (touch : Int) : Int :=
  if touch ≠ 0 then
    pyMin (pyMax (Rat.floor (qdiv check_bid (qi TICK_SIZE_IN_CENTS)) * TICK_SIZE_IN_CENTS) 0)
      (touch + TICK_SIZE_IN_CENTS)
  else 0

/-- Line 186 for the ask: round down to the tick and clamp by
max(_, 0) then max(_, touch - tick); target 0 when the touch is 0. -/
def askTarget (check_ask : ℚ) (touch : Int) : Int :=
  if touch ≠ 0 then
    pyMax (pyMax (Rat.floor (qdiv check_ask (qi TICK_SIZE_IN_CENTS)) * TICK_SIZE_IN_CENTS) 0)
      (touch - TICK_SIZE_IN_CENTS)
  else 0

/-- Lines 189-206: the deviation flags.  With at least 2 samples, a
strongly trended mid series (|r| > 0.55, compared squared) uses the
extrapolated mid plus or minus |stderr|; otherwise the bounds are the short
averages plus or minus the sample stdev of the last 7 samples (compared via
sqrtLeB).  An infinite stderr (scipy n = 2, distinct ys) makes both
comparisons false. -/
def deviationFlags (hvb hva hmid : List Int) (avg_vbid avg_vask : ℚ)
    (new_bid_price new_ask_price : Int) : Bool × Bool :=
  if 2 ≤ hva.length then
    let mReg := linregress hmid
    if mReg.rSq > sq (qdiv (qi 55) (qi 100)) then
      let predict_mid := qadd mReg.intercept (qmul mReg.slope (qlen hmid))
      match mReg.stderrSq with
      | none => (false, false)
      | some s2 =>
          (sqrtLeB s2 (qsub (qi new_bid_price) predict_mid),
           sqrtLeB s2 (qsub predict_mid (qi new_ask_price)))
    else
      (sqrtLeB (stdevSq (lastN 7 hvb)) (qsub (qi new_bid_price) avg_vbid),
       sqrtLeB (stdevSq (lastN 7 hva)) (qsub avg_vask (qi new_ask_price)))
  else (false, false)

/-- Everything the order book handler computes before the order state
machine runs (lines 91-206): the state with updated histories and RSI
memory, and all the intermediate signal values. -/
structure Decision where
  s : TraderState
  vbid : Int
  vask : Int
  vmid : Int
  rsi : ℚ
  over_bought_rsi : Bool
  over_sold_rsi : Bool
  avg_vbid : ℚ
  avg_vask : ℚ
  grad_bid : ℚ
  grad_ask : ℚ
  check_bid : ℚ
  check_ask : ℚ
  new_bid_price : Int
  new_ask_price : Int
  deviation_bid : Bool
  deviation_ask : Bool
deriving DecidableEq

instance : Inhabited Decision :=
  ⟨⟨initState, 0, 0, 0, qi (-1), false, false, qi 0, qi 0, qi 0, qi 0, qi 0, qi 0, 0, 0, false, false⟩⟩

/-- Lines 91-206 of on_order_book_update_message: the signal pipeline.
Assumes the caller has checked instrument == FUTURE and
bid_prices[0] != 0. -/
def bookSignals (s : TraderState) (ask_prices ask_volumes bid_prices bid_volumes : List Int) :
    Except Err Decision :=
  match vwap3 bid_prices bid_volumes with
  | .error e => .error e
  | .ok vbid =>
  match vwap3 ask_prices ask_volumes with
  | .error e => .error e
  | .ok vask =>
  let vmid := Int.fdiv (vbid + vask) 2
  let hvb := truncHist (s.history_vbid ++ [vbid])
  let hva := truncHist (s.history_vask ++ [vask])
  let hmid := truncHist (s.history_mid ++ [vmid])
  match rsiUpdate s.gain s.loss hmid vmid with
  | .error e => .error e
  | .ok (gain, loss, rsi, over_bought_rsi, over_sold_rsi) =>
  -- lines 147-155: averages of the last min(7, len) samples
  let pre_end := hva.length - 1
  let idxs : List Nat := List.range' (pre_end - 6) (pre_end + 1 - (pre_end - 6))
  let avg_vask : ℚ := qdiv (qi (idxs.map (fun i => pyGet hva (i : Int))).sum)
      (qi (pyMaxN 1 (pyMinN 7 (pre_end + 1)) : Nat))
  let avg_vbid : ℚ := qdiv (qi (idxs.map (fun i => pyGet hvb (i : Int))).sum)
      (qi (pyMaxN 1 (pyMinN 7 (pre_end + 1)) : Nat))
  -- lines 159-161: momentum gradients
  let start := pre_end - 5
  let grad_bid : ℚ := qdiv (qdiv (qi (vbid - pyGet hvb (start : Int)))
      (qi (pyMinN hvb.length 5 : Nat))) (qi (pyMax (pyGet hvb (start : Int)) 1))
  let grad_ask : ℚ := qdiv (qdiv (qi (vask - pyGet hva (start : Int)))
      (qi (pyMinN hva.length 5 : Nat))) (qi (pyMax (pyGet hva (start : Int)) 1))
  -- lines 163-167: trend regressions
  let bReg := if 2 ≤ hvb.length then linregress hvb else LinReg.zero
  let aReg := if 2 ≤ hva.length then linregress hva else LinReg.zero
  -- lines 169-183: target prices before rounding
  let check_bid : ℚ :=
    if bReg.rSq ≥ sq (qdiv (qi 8) (qi 10)) then qadd bReg.intercept (qmul bReg.slope (qlen hvb))
    else if rsi = qi (-1) then qmul avg_vbid (qadd (qi 1) grad_bid)
    else qmul avg_vbid (qadd (qi 1) (qmul grad_bid (qadd (qi 1)
      (qmul (qdiv (qsub (qi 75) rsi) (qi 100)) (qdiv (qi 8) (qi 10))))))
  let check_ask : ℚ :=
    if aReg.rSq ≥ sq (qdiv (qi 8) (qi 10)) then qadd aReg.intercept (qmul aReg.slope (qlen hva))
    else if rsi = qi (-1) then qmul avg_vask (qadd (qi 1) grad_ask)
    else qmul avg_vask (qadd (qi 1) (qmul grad_ask (qadd (qi 1)
      (qmul (qdiv (qsub rsi (qi 25)) (qi 100)) (qdiv (qi 8) (qi 10))))))
  -- lines 185-186: rounding and clamping
  let new_bid_price := bidTarget check_bid (pyGet bid_prices 0)
  let new_ask_price := askTarget check_ask (pyGet ask_prices 0)
  -- lines 189-206: deviation flags
  let devs := deviationFlags hvb hva hmid avg_vbid avg_vask new_bid_price new_ask_price
  let deviation_bid := devs.1
  let deviation_ask := devs.2
  let s1 : TraderState :=
    { s with history_vbid := hvb, history_vask := hva, history_mid := hmid,
             gain := gain, loss := loss }
  .ok ⟨s1, vbid, vask, vmid, rsi, over_bought_rsi, over_sold_rsi, avg_vbid, avg_vask,
        grad_bid, grad_ask, check_bid, check_ask, new_bid_price, new_ask_price,
        deviation_bid, deviation_ask⟩

/-- Lines 208-215: the two replace checks.  A firing check cancels the
resting order, clears the id slot and sets the pending volume for that
side to the literal 10.  The ask side check compares new_bid_price (not
new_ask_price) exactly as the source does at line 212. -/
def replaceStep (d : Decision) : TraderState × List Command :=
  let s := d.s
  let bid_fire : Prop := s.bid_id ≠ 0 ∧ d.new_bid_price ≠ 0 ∧
      (qi d.new_bid_price > qmul (qi s.bid_price) (qadd (qi 1) d.grad_bid) ∨
       qi d.new_bid_price < qmul (qi s.bid_price) (qsub (qi 1) d.grad_bid))
  let p1 : TraderState × List Command :=
    if bid_fire then
      ({ s with bid_id := 0, bid_ordered := 10 }, [Command.cancelOrder s.bid_id])
    else (s, [])
  let s1 := p1.1
  let ask_fire : Prop := s1.ask_id ≠ 0 ∧ d.new_ask_price ≠ 0 ∧
      (qi d.new_bid_price > qmul (qi s1.ask_price) (qadd (qi 1) d.grad_ask) ∨
       qi d.new_bid_price < qmul (qi s1.ask_price) (qsub (qi 1) d.grad_ask))
  if ask_fire then
    ({ s1 with ask_id := 0, ask_ordered := 10 }, p1.2 ++ [Command.cancelOrder s1.ask_id])
  else (s1, p1.2)

/-- Lines 218-231: the two insert checks, run after the replace checks.
A new bid needs an idle slot, a nonzero target, room inside the
position limit and the disjunction (not deviation_bid or not
over_bought_rsi); symmetrically for the ask. -/
def insertStep (d : Decision) (s : TraderState) : TraderState × List Command :=
  let p1 : TraderState × List Command :=
    if s.bid_id = 0 ∧ d.new_bid_price ≠ 0 ∧
        s.bid_ordered + s.position + LOT_SIZE < POSITION_LIMIT ∧
        (d.deviation_bid = false ∨ d.over_bought_rsi = false) then
      ({ s with bid_id := s.nextOrderId, nextOrderId := s.nextOrderId + 1,
                bid_price := d.new_bid_price, bid_ordered := s.bid_ordered + LOT_SIZE,
                bids := pyAdd s.nextOrderId s.bids },
       [Command.insertOrder s.nextOrderId Side.buy d.new_bid_price LOT_SIZE Lifespan.goodForDay])
    else (s, [])
  let s1 := p1.1
  if s1.ask_id = 0 ∧ d.new_ask_price ≠ 0 ∧
      s1.position - s1.ask_ordered - LOT_SIZE > -POSITION_LIMIT ∧
      (d.deviation_ask = false ∨ d.over_sold_rsi = false) then
    ({ s1 with ask_id := s1.nextOrderId, nextOrderId := s1.nextOrderId + 1,
               ask_price := d.new_ask_price, ask_ordered := s1.ask_ordered + LOT_SIZE,
               asks := pyAdd s1.nextOrderId s1.asks },
     p1.2 ++ [Command.insertOrder s1.nextOrderId Side.sell d.new_ask_price LOT_SIZE
                Lifespan.goodForDay])
  else (s1, p1.2)

/-- Lines 208-231: the order and inventory state machine for one book
update, given the computed decision. -/
def reconcile (d : Decision) : TraderState × List Command :=
  let p1 := replaceStep d
  let p2 := insertStep d p1.1
  (p2.1, p1.2 ++ p2.2)

/-- Lines 79-231: on_order_book_update_message.  Non FUTURE instruments
and a zero best bid leave the state unchanged and send nothing. -/
def on_order_book_update_message (s : TraderState) (instrument : Nat) (sequence_number : Nat)
    (ask_prices ask_volumes bid_prices bid_volumes : List Int) :
    Except Err (TraderState × List Command) :=
  if instrument = Instrument.FUTURE then
    if pyGet bid_prices 0 ≠ 0 then
      match bookSignals s ask_prices ask_volumes bid_prices bid_volumes with
      | .error e => .error e
      | .ok d => .ok (reconcile d)
    else .ok (s, [])
  else .ok (s, [])

/-- Lines 233-249: on_order_filled_message.  A fill on a tracked bid
increases the position, decreases the bid pending volume and hedges
with a sell at MIN_BID_NEAREST_TICK; a fill on a tracked ask is the
mirror image with a buy at MAX_ASK_NEAREST_TICK; anything else is
ignored. -/
def on_order_filled_message (s : TraderState) (client_order_id : Nat) (price volume : Int) :
    TraderState × List Command :=
  if client_order_id ∈ s.bids then
    ({ s with position := s.position + volume, bid_ordered := s.bid_ordered - volume,
              nextOrderId := s.nextOrderId + 1 },
     [Command.hedgeOrder s.nextOrderId Side.sell MIN_BID_NEAREST_TICK volume])
  else if client_order_id ∈ s.asks then
    ({ s with position := s.position - volume, ask_ordered := s.ask_ordered - volume,
              nextOrderId := s.nextOrderId + 1 },
     [Command.hedgeOrder s.nextOrderId Side.buy MAX_ASK_NEAREST_TICK volume])
  else (s, [])

/-- Lines 251-272: on_order_status_message.  Zero remaining volume
clears the matching id slot and removes the id from both tracking
sets. -/
def on_order_status_message (s : TraderState) (client_order_id : Nat)
    (fill_volume remaining_volume fees : Int) : TraderState :=
  if remaining_volume = 0 then
    let s1 :=
      if client_order_id = s.bid_id then { s with bid_id := 0 }
      else if client_order_id = s.ask_id then { s with ask_id := 0 }
      else s
    { s1 with bids := pyDiscard client_order_id s1.bids, asks := pyDiscard client_order_id s1.asks }
  else s

/-- Lines 59-67: on_error_message treats an error on a tracked order as
a zero remaining volume status update. -/
def on_error_message (s : TraderState) (client_order_id : Nat) : TraderState :=
  if client_order_id ≠ 0 ∧ (client_order_id ∈ s.bids ∨ client_order_id ∈ s.asks) then
    on_order_status_message s client_order_id 0 0 0
  else s

/-- Inbound events from the market gateway (section 6 of the spec). -/
inductive Event
  | orderBook (instrument : Nat) (sequence_number : Nat)
      (ask_prices ask_volumes bid_prices bid_volumes : List Int)
  | orderFilled (client_order_id : Nat) (price volume : Int)
  | orderStatus (client_order_id : Nat) (fill_volume remaining_volume fees : Int)
  | errorMessage (client_order_id : Nat)
  | hedgeFilled (client_order_id : Nat) (price volume : Int)
  | tradeTicks (instrument : Nat) (sequence_number : Nat)
      (ask_prices ask_volumes bid_prices bid_volumes : List Int)
deriving DecidableEq

/-- Dispatch of one inbound event to its handler.  Hedge fill and trade
tick events only log (lines 69-77 and 274-286). -/
def step (s : TraderState) : Event → Except Err (TraderState × List Command)
  | .orderBook inst seq ap av bp bv => on_order_book_update_message s inst seq ap av bp bv
  | .orderFilled id p v => .ok (on_order_filled_message s id p v)
  | .orderStatus id f r fees => .ok (on_order_status_message s id f r fees, [])
  | .errorMessage id => .ok (on_error_message s id, [])
  | .hedgeFilled _ _ _ => .ok (s, [])
  | .tradeTicks _ _ _ _ _ _ => .ok (s, [])

/-- Serial processing of an event list (the single threaded asyncio
loop), collecting all outbound commands in order. -/
def runE : TraderState → List Event → Except Err (TraderState × List Command)
  | s, [] => .ok (s, [])
  | s, e :: es =>
    match step s e with
    | .error er => .error er
    | .ok p =>
      match runE p.1 es with
      | .error er => .error er
      | .ok q => .ok (q.1, p.2 ++ q.2)

/-- The order ids consumed from the counter by outbound commands, in
emission order (insert and hedge commands draw a fresh id; cancels
reuse an existing id). -/
def idsOf : List Command → List Nat
  | [] => []
  | .insertOrder id _ _ _ _ :: cs => id :: idsOf cs
  | .hedgeOrder id _ _ _ :: cs => id :: idsOf cs
  | .cancelOrder _ :: cs => idsOf cs

/-! ### The RSI sub-procedure as a function of a mid price series

The RSI state of the trader (history_mid, gain, loss) evolves only
through the append / truncate / rsiUpdate steps of the book handler.
Feeding a mid price series through exactly those steps gives the RSI
the code produces for that series. -/

/-- The RSI-relevant fragment of the session state. -/
structure RsiSt where
  hist : List Int
  gain : ℚ
  loss : ℚ
deriving DecidableEq

/-- Lines 103-145 restricted to the mid series: append the new sample,
truncate to 15, update the RSI memory.  Returns the new state and the
rsi value of this cycle (sentinel -1 while under 11 samples). -/
def feedMid (st : RsiSt) (m : Int) : Except Err (RsiSt × ℚ) :=
  let hist := truncHist (st.hist ++ [m])
  match rsiUpdate st.gain st.loss hist m with
  | .error e => .error e
  | .ok r => .ok (⟨hist, r.1, r.2.1⟩, r.2.2.1)

/-- Feed a whole series, keeping the rsi of the latest cycle. -/
def runRsi : RsiSt × ℚ → List Int → Except Err (RsiSt × ℚ)
  | p, [] => .ok p
  | p, m :: ms =>
    match feedMid p.1 m with
    | .error e => .error e
    | .ok q => runRsi q ms

/-- The RSI the code computes for a mid price series, starting from the
fresh session state (empty history, gain = loss = -1). -/
def codeRsi (mids : List Int) : Except Err (RsiSt × ℚ) :=
  runRsi (⟨[], qi (-1), qi (-1)⟩, qi (-1)) mids

/-- RSI formula from average gain and loss (line 141). -/
def rsiOf (gl : ℚ × ℚ) : ℚ := qsub (qi 100) (qdiv (qi 100) (qadd (qi 1) (qdiv gl.1 gl.2)))

/-- One Wilder smoothing step with weight 9:1 on a new delta. -/
def wilderSmooth (gl : ℚ × ℚ) (d : Int) : ℚ × ℚ :=
  (qdiv (qadd (qmul gl.1 (qi 9)) (if d > 0 then qi d else qi 0)) (qi 10),
   qdiv (qadd (qmul gl.2 (qi 9)) (if d > 0 then qi 0 else qi (pyAbs d))) (qi 10))

/-- Consecutive one-step deltas of a series. -/
def deltas (mids : List Int) : List Int :=
  (mids.zip mids.tail).map (fun p => p.2 - p.1)

/-- Modelled from the spec: reference Wilder RSI.  Needs at least 11
samples; seed average gain / loss are the means of the positive /
absolute negative one-step deltas over the first 10 consecutive
transitions, every later delta is folded in with weight 9:1, and
RSI = 100 - 100/(1 + avgGain/avgLoss); none when the average loss is
zero (the case the spec leaves open) or under 11 samples. -/
def wilderRsi (mids : List Int) : Option ℚ :=
  if mids.length < 11 then none
  else
    let ds := deltas mids
    let g0 : ℚ := qdiv (qi ((ds.take 10).map (fun d => if d > 0 then d else 0)).sum) (qi 10)
    let l0 : ℚ := qdiv (qi ((ds.take 10).map (fun d => if d > 0 then 0 else pyAbs d)).sum) (qi 10)
    let gl := (ds.drop 10).foldl wilderSmooth (g0, l0)
    if gl.2 = qi 0 then none else some (rsiOf gl)

/-- Modelled from the spec as amended by the counterexample: the seed
average gain / loss at the 11th sample are the means of the positive /
absolute negative differences of that sample against each of its 10
predecessors (not the consecutive deltas). -/
def altSeed (mids : List Int) : ℚ × ℚ :=
  let last := mids.getD 10 0
  let ds := (List.range 10).map (fun i => last - mids.getD i 0)
  (qdiv (qi (ds.map (fun d => if d > 0 then d else 0)).sum) (qi 10),
   qdiv (qi (ds.map (fun d => if d > 0 then 0 else pyAbs d)).sum) (qi 10))

/-- Modelled from the spec as amended by the counterexample: average
gain / loss after a whole series, seeded by altSeed on the first 11
samples and Wilder-smoothed with each later consecutive delta (the
deltas from the 10th transition on). -/
def altGL (mids : List Int) : ℚ × ℚ :=
  ((deltas mids).drop 10).foldl wilderSmooth (altSeed (mids.take 11))

/-- Modelled from the spec: the bid target rounded down to the tick and
clamped into the interval [0, bestBid + one tick]. -/
def specBidTarget (check : ℚ) (touch : Int) : Int :=
  max 0 (min (Rat.floor (qdiv check (qi TICK_SIZE_IN_CENTS)) * TICK_SIZE_IN_CENTS)
    (touch + TICK_SIZE_IN_CENTS))

/-- Modelled from the spec: the ask target rounded down to the tick and
clamped to be at least bestAsk - one tick (the spec states no zero
floor). -/
def specAskTarget (check : ℚ) (touch : Int) : Int :=
  max (Rat.floor (qdiv check (qi TICK_SIZE_IN_CENTS)) * TICK_SIZE_IN_CENTS)
    (touch - TICK_SIZE_IN_CENTS)

/-! ### Session invariants -/

/-- Well-formedness of the id bookkeeping: the counter is live, every
tracked id is a nonzero past counter value, and the two tracking sets
are disjoint. -/
structure Inv (s : TraderState) : Prop where
  pos0 : 0 < s.nextOrderId
  bids_lt : ∀ i ∈ s.bids, i < s.nextOrderId
  asks_lt : ∀ i ∈ s.asks, i < s.nextOrderId
  bids_pos : ∀ i ∈ s.bids, 0 < i
  asks_pos : ∀ i ∈ s.asks, 0 < i
  disj : ∀ i ∈ s.bids, i ∉ s.asks

/-- Every tracked id is either the Working order of its side or a
cancel for it is among the commands sent so far. -/
def TrackInv (s : TraderState) (cs : List Command) : Prop :=
  (∀ i ∈ s.bids, i = s.bid_id ∨ Command.cancelOrder i ∈ cs) ∧
  (∀ i ∈ s.asks, i = s.ask_id ∨ Command.cancelOrder i ∈ cs)

/-- The cancel commands of an outbound batch, in order. -/
def cancelsOf (cs : List Command) : List Command :=
  cs.filter fun c => match c with | Command.cancelOrder _ => true | _ => false

/-- The RSI value the amended reference computation assigns to a mid
series: the sentinel -1 under 11 samples, the RSI of the altGL average
gain and loss afterwards. -/
def rsiSpec (p : List Int) : ℚ := if p.length ≤ 10 then qi (-1) else rsiOf (altGL p)

/-- Invariant tying the RSI fragment of the state to the series fed so
far: the history is the last 15 samples, the memory is at the sentinel
until 11 samples exist, and from then on equals the altGL recurrence
with a nonzero loss and nonnegative gain. -/
def RsiInv (p : List Int) (st : RsiSt) : Prop :=
  st.hist = lastN 15 p ∧
  (p.length ≤ 10 → st.gain = -1 ∧ st.loss = -1) ∧
  (11 ≤ p.length →
    0 ≤ st.gain ∧ st.gain = (altGL p).1 ∧ st.loss = (altGL p).2 ∧ st.loss ≠ 0)

/-! ### Concrete traces used by counterexamples and witnesses

All book updates below are for the FUTURE instrument with all five
levels populated at a single price with volume 1, so the volume
weighted price of levels 1..3 equals that price and the touch equals
it as well (except where stated). -/

/-- A flat book: every bid level at 10000, every ask level at 30000. -/
def flatBook : Event :=
  .orderBook 0 1 [30000, 30000, 30000, 30000, 30000] [1, 1, 1, 1, 1]
    [10000, 10000, 10000, 10000, 10000] [1, 1, 1, 1, 1]

/-- Book update number k of the falling market used by the C1
counterexample: all bid levels at 100000 - 1000k, all ask levels 2000
higher. -/
def decBook (k : Int) : Event :=
  .orderBook 0 1
    [102000 - 1000 * k, 102000 - 1000 * k, 102000 - 1000 * k, 102000 - 1000 * k,
      102000 - 1000 * k] [1, 1, 1, 1, 1]
    [100000 - 1000 * k, 100000 - 1000 * k, 100000 - 1000 * k, 100000 - 1000 * k,
      100000 - 1000 * k] [1, 1, 1, 1, 1]

/-- C1 counterexample trace, book phase: ten falling book updates. -/
def C1bookEvents : List Event :=
  [decBook 1, decBook 2, decBook 3, decBook 4, decBook 5, decBook 6, decBook 7, decBook 8,
   decBook 9, decBook 10]

/-- C1 counterexample trace, fill phase: one full 10 lot fill for each
of the ten tracked bid orders 1, 3, ..., 19 (each was inserted with
volume 10 and is filled exactly once, which is legal because no cancel
acknowledgement has arrived for any of them). -/
def C1fillEvents : List Event :=
  [.orderFilled 1 0 10, .orderFilled 3 0 10, .orderFilled 5 0 10, .orderFilled 7 0 10,
   .orderFilled 9 0 10, .orderFilled 11 0 10, .orderFilled 13 0 10, .orderFilled 15 0 10,
   .orderFilled 17 0 10, .orderFilled 19 0 10]

/-- The full C1 counterexample trace: each falling update replaces the
resting bid, and the cancel at line 211 resets the pending bid volume
to one lot, forgetting the volume still in flight on the previously
cancelled, unacknowledged orders; the ten fills then push the position
to 100. -/
def C1events : List Event := C1bookEvents ++ C1fillEvents

/-- The session state after the first k falling book updates
(1 <= k <= 10), written in closed form; each step theorem below checks
it against the handler by evaluation. -/
def C1state (k : Nat) : TraderState :=
  { nextOrderId := 2 * k + 1
    bids := (List.range k).map (fun j => 2 * j + 1)
    asks := (List.range k).map (fun j => 2 * j + 2)
    ask_id := 2 * k
    ask_price := if k = 1 then 101000 else 101900 - 1000 * (k : Int)
    bid_id := 2 * k - 1
    bid_price := if k = 1 then 99000 else 99000 - 1000 * (k : Int)
    position := 0
    history_vbid := (List.range k).map (fun j => 99000 - 1000 * (j : Int))
    history_vask := (List.range k).map (fun j => 101000 - 1000 * (j : Int))
    history_mid := (List.range k).map (fun j => 100000 - 1000 * (j : Int))
    gain := qi (-1)
    loss := qi (-1)
    bid_ordered := if k = 1 then 10 else 20
    ask_ordered := if k = 1 then 10 else 20 }

/-- The net position after the C1 counterexample trace. -/
def C1finalPosition : Except Err Int :=
  (runE initState C1events).map (fun r => r.1.position)

/-- C2 counterexample trace: two identical flat book updates.  The
second one cancels the resting ask (the ask replace check compares the
bid target) and immediately inserts a new ask, leaving both ids in the
ask tracking set. -/
def C2events : List Event := [flatBook, flatBook]

/-- The ask tracking set size after the C2 counterexample trace. -/
def C2askCard : Except Err Nat :=
  (runE initState C2events).map (fun r => r.1.asks.length)

/-- The session state after one flat book update (bid 1 resting at
10000, ask 2 resting at 30000). -/
def flatState1 : TraderState :=
  { nextOrderId := 3, bids := [1], asks := [2], ask_id := 2, ask_price := 30000,
    bid_id := 1, bid_price := 10000, position := 0, history_vbid := [10000],
    history_vask := [30000], history_mid := [20000], gain := qi (-1), loss := qi (-1),
    bid_ordered := 10, ask_ordered := 10 }

/-- The session state after two flat book updates: the cancelled ask 2
is still tracked next to the new ask 3. -/
def flatState2 : TraderState :=
  { nextOrderId := 4, bids := [1], asks := [2, 3], ask_id := 3, ask_price := 30000,
    bid_id := 1, bid_price := 10000, position := 0, history_vbid := [10000, 10000],
    history_vask := [30000, 30000], history_mid := [20000, 20000], gain := qi (-1), loss := qi (-1),
    bid_ordered := 10, ask_ordered := 20 }

/-- C4 counterexample: the decision the signal pipeline computes for a
second flat book update from flatState1 (checked against bookSignals
by evaluation below). -/
def C4decision : Decision :=
  ⟨{ nextOrderId := 3, bids := [1], asks := [2], ask_id := 2, ask_price := 30000,
     bid_id := 1, bid_price := 10000, position := 0, history_vbid := [10000, 10000],
     history_vask := [30000, 30000], history_mid := [20000, 20000], gain := qi (-1), loss := qi (-1),
     bid_ordered := 10, ask_ordered := 10 },
   10000, 30000, 20000, qi (-1), false, false, qi 10000, qi 30000, qi 0, qi 0, qi 10000,
   qi 30000, 10000, 30000, true, true⟩

/-- C7 counterexample: the state after one flat book update followed by
a zero remaining volume status for bid order 1 (bid slot idle, bid no
longer tracked). -/
def C7state2 : TraderState :=
  { nextOrderId := 3, bids := [], asks := [2], ask_id := 2, ask_price := 30000,
    bid_id := 0, bid_price := 10000, position := 0, history_vbid := [10000],
    history_vask := [30000], history_mid := [20000], gain := qi (-1), loss := qi (-1),
    bid_ordered := 10, ask_ordered := 10 }

/-- C7 counterexample: the decision computed for the flat book update
processed from C7state2 (deviation_bid true, RSI flags false). -/
def C7decision : Decision :=
  ⟨{ nextOrderId := 3, bids := [], asks := [2], ask_id := 2, ask_price := 30000,
     bid_id := 0, bid_price := 10000, position := 0, history_vbid := [10000, 10000],
     history_vask := [30000, 30000], history_mid := [20000, 20000], gain := qi (-1), loss := qi (-1),
     bid_ordered := 10, ask_ordered := 10 },
   10000, 30000, 20000, qi (-1), false, false, qi 10000, qi 30000, qi 0, qi 0, qi 10000,
   qi 30000, 10000, 30000, true, true⟩

/-- C8 counterexample: first book update, every level of both sides
at 500. -/
def c8book1 : Event :=
  .orderBook 0 1 [500, 500, 500, 500, 500] [1, 1, 1, 1, 1]
    [500, 500, 500, 500, 500] [1, 1, 1, 1, 1]

/-- C8 counterexample: second book update, every level at 300. -/
def c8book2 : Event :=
  .orderBook 0 1 [300, 300, 300, 300, 300] [1, 1, 1, 1, 1]
    [300, 300, 300, 300, 300] [1, 1, 1, 1, 1]

/-- The session state after c8book1. -/
def C8state1 : TraderState :=
  { nextOrderId := 3, bids := [1], asks := [2], ask_id := 2, ask_price := 500,
    bid_id := 1, bid_price := 500, position := 0, history_vbid := [500],
    history_vask := [500], history_mid := [500], gain := qi (-1), loss := qi (-1),
    bid_ordered := 10, ask_ordered := 10 }

/-- The session state after c8book1 and c8book2. -/
def C8state2 : TraderState :=
  { nextOrderId := 5, bids := [1, 3], asks := [2, 4], ask_id := 4, ask_price := 200,
    bid_id := 3, bid_price := 100, position := 0, history_vbid := [500, 300],
    history_vask := [500, 300], history_mid := [500, 300], gain := qi (-1), loss := qi (-1),
    bid_ordered := 20, ask_ordered := 20 }

/-- C8 counterexample: the decision for a third book update whose ask
levels 1..3 are at 100 (perfect falling line 500, 300, 100, so the
strong trend branch extrapolates check_ask = -100) while the ask touch
is 50. -/
def C8decision : Decision :=
  ⟨{ nextOrderId := 5, bids := [1, 3], asks := [2, 4], ask_id := 4, ask_price := 200,
     bid_id := 3, bid_price := 100, position := 0, history_vbid := [500, 300, 100],
     history_vask := [500, 300, 100], history_mid := [500, 300, 100], gain := qi (-1), loss := qi (-1),
     bid_ordered := 20, ask_ordered := 20 },
   100, 100, 100, qi (-1), false, false, qi 300, qi 300, qdiv (qi (-4)) (qi 15),
   qdiv (qi (-4)) (qi 15), qi (-100), qi (-100), 0, 0, true, false⟩

/-- C6 counterexample series: nine flat samples, a spike to 120, then
110.  The code seed compares 110 against each of the 10 predecessors
(gain 9, loss 1, RSI 90); the Wilder reference uses the consecutive
deltas (gain 2, loss 1, RSI 200/3). -/
def C6series : List Int := [100, 100, 100, 100, 100, 100, 100, 100, 100, 120, 110]

end AutoTrader

namespace AutoTrader

/-! ## Theorems -/

set_option maxRecDepth 4000


/-- C3: the claim says every order book update runs to completion with
numeric degeneracies skipped; in fact a book update for the FUTURE
instrument with a nonzero best bid but zero total volume on bid levels
1..3 reaches the division at line 97 with a zero denominator and the
handler raises ZeroDivisionError instead of skipping the signal.  (The
same happens at line 140 when the smoothed average loss is zero.) -/
theorem C3_zero_volume_crash :
    on_order_book_update_message initState 0 1 [60, 60, 60, 60, 60] [1, 1, 1, 1, 1]
      [50, 0, 0, 0, 0] [7, 0, 0, 0, 0] = .error .divByZero := by
  decide

theorem C1step1 : step initState (decBook 1) = .ok (C1state 1,
    [Command.insertOrder 1 Side.buy 99000 10 Lifespan.goodForDay,
     Command.insertOrder 2 Side.sell 101000 10 Lifespan.goodForDay]) := by
  decide

theorem C1step2 : step (C1state 1) (decBook 2) = .ok (C1state 2,
    [Command.cancelOrder 1, Command.cancelOrder 2,
     Command.insertOrder 3 Side.buy 97000 10 Lifespan.goodForDay,
     Command.insertOrder 4 Side.sell 99900 10 Lifespan.goodForDay]) := by
  decide

theorem C1step3 : step (C1state 2) (decBook 3) = .ok (C1state 3,
    [Command.cancelOrder 3, Command.cancelOrder 4,
     Command.insertOrder 5 Side.buy 96000 10 Lifespan.goodForDay,
     Command.insertOrder 6 Side.sell 98900 10 Lifespan.goodForDay]) := by
  decide

theorem C1step4 : step (C1state 3) (decBook 4) = .ok (C1state 4,
    [Command.cancelOrder 5, Command.cancelOrder 6,
     Command.insertOrder 7 Side.buy 95000 10 Lifespan.goodForDay,
     Command.insertOrder 8 Side.sell 97900 10 Lifespan.goodForDay]) := by
  decide

theorem C1step5 : step (C1state 4) (decBook 5) = .ok (C1state 5,
    [Command.cancelOrder 7, Command.cancelOrder 8,
     Command.insertOrder 9 Side.buy 94000 10 Lifespan.goodForDay,
     Command.insertOrder 10 Side.sell 96900 10 Lifespan.goodForDay]) := by
  decide

theorem C1step6 : step (C1state 5) (decBook 6) = .ok (C1state 6,
    [Command.cancelOrder 9, Command.cancelOrder 10,
     Command.insertOrder 11 Side.buy 93000 10 Lifespan.goodForDay,
     Command.insertOrder 12 Side.sell 95900 10 Lifespan.goodForDay]) := by
  decide

theorem C1step7 : step (C1state 6) (decBook 7) = .ok (C1state 7,
    [Command.cancelOrder 11, Command.cancelOrder 12,
     Command.insertOrder 13 Side.buy 92000 10 Lifespan.goodForDay,
     Command.insertOrder 14 Side.sell 94900 10 Lifespan.goodForDay]) := by
  decide

theorem C1step8 : step (C1state 7) (decBook 8) = .ok (C1state 8,
    [Command.cancelOrder 13, Command.cancelOrder 14,
     Command.insertOrder 15 Side.buy 91000 10 Lifespan.goodForDay,
     Command.insertOrder 16 Side.sell 93900 10 Lifespan.goodForDay]) := by
  decide

theorem C1step9 : step (C1state 8) (decBook 9) = .ok (C1state 9,
    [Command.cancelOrder 15, Command.cancelOrder 16,
     Command.insertOrder 17 Side.buy 90000 10 Lifespan.goodForDay,
     Command.insertOrder 18 Side.sell 92900 10 Lifespan.goodForDay]) := by
  decide

theorem C1step10 : step (C1state 9) (decBook 10) = .ok (C1state 10,
    [Command.cancelOrder 17, Command.cancelOrder 18,
     Command.insertOrder 19 Side.buy 89000 10 Lifespan.goodForDay,
     Command.insertOrder 20 Side.sell 91900 10 Lifespan.goodForDay]) := by
  decide

theorem C1fillsPosition :
    (runE (C1state 10) C1fillEvents).map (fun r => r.1.position) = .ok 100 := by
  decide

/-- Processing a concatenated event list is processing the two parts in
sequence (commands concatenate). -/
theorem runE_append (s : TraderState) (xs ys : List Event) :
    runE s (xs ++ ys) =
      (match runE s xs with
       | .error er => .error er
       | .ok p =>
         match runE p.1 ys with
         | .error er => .error er
         | .ok q => .ok (q.1, p.2 ++ q.2)) := by
  induction xs generalizing s with
  | nil =>
      simp only [List.nil_append, runE]
      cases runE s ys with
      | error er => rfl
      | ok q => rfl
  | cons e es ih =>
      simp only [List.cons_append, runE]
      cases step s e with
      | error er => rfl
      | ok p =>
          simp only [List.append_eq, ih]
          cases runE p.1 es with
          | error er => rfl
          | ok q =>
              dsimp only
              cases runE q.1 ys with
              | error er => rfl
              | ok r => simp [List.append_assoc]

/-- C1 counterexample: after the ten falling book updates and the ten
legal fills of C1events, the net position is 100, strictly beyond
POSITION_LIMIT = 93. -/
theorem C1_position_limit_cex :
    C1finalPosition = .ok 100 ∧ ¬((100 : Int) ≤ POSITION_LIMIT) := by
  constructor
  · have hbooks : runE initState C1bookEvents = .ok (C1state 10,
        [Command.insertOrder 1 Side.buy 99000 10 Lifespan.goodForDay,
         Command.insertOrder 2 Side.sell 101000 10 Lifespan.goodForDay] ++
        ([Command.cancelOrder 1, Command.cancelOrder 2,
          Command.insertOrder 3 Side.buy 97000 10 Lifespan.goodForDay,
          Command.insertOrder 4 Side.sell 99900 10 Lifespan.goodForDay] ++
        ([Command.cancelOrder 3, Command.cancelOrder 4,
          Command.insertOrder 5 Side.buy 96000 10 Lifespan.goodForDay,
          Command.insertOrder 6 Side.sell 98900 10 Lifespan.goodForDay] ++
        ([Command.cancelOrder 5, Command.cancelOrder 6,
          Command.insertOrder 7 Side.buy 95000 10 Lifespan.goodForDay,
          Command.insertOrder 8 Side.sell 97900 10 Lifespan.goodForDay] ++
        ([Command.cancelOrder 7, Command.cancelOrder 8,
          Command.insertOrder 9 Side.buy 94000 10 Lifespan.goodForDay,
          Command.insertOrder 10 Side.sell 96900 10 Lifespan.goodForDay] ++
        ([Command.cancelOrder 9, Command.cancelOrder 10,
          Command.insertOrder 11 Side.buy 93000 10 Lifespan.goodForDay,
          Command.insertOrder 12 Side.sell 95900 10 Lifespan.goodForDay] ++
        ([Command.cancelOrder 11, Command.cancelOrder 12,
          Command.insertOrder 13 Side.buy 92000 10 Lifespan.goodForDay,
          Command.insertOrder 14 Side.sell 94900 10 Lifespan.goodForDay] ++
        ([Command.cancelOrder 13, Command.cancelOrder 14,
          Command.insertOrder 15 Side.buy 91000 10 Lifespan.goodForDay,
          Command.insertOrder 16 Side.sell 93900 10 Lifespan.goodForDay] ++
        ([Command.cancelOrder 15, Command.cancelOrder 16,
          Command.insertOrder 17 Side.buy 90000 10 Lifespan.goodForDay,
          Command.insertOrder 18 Side.sell 92900 10 Lifespan.goodForDay] ++
        ([Command.cancelOrder 17, Command.cancelOrder 18,
          Command.insertOrder 19 Side.buy 89000 10 Lifespan.goodForDay,
          Command.insertOrder 20 Side.sell 91900 10 Lifespan.goodForDay] ++ [])))))))))) := by
      simp only [C1bookEvents, runE, C1step1, C1step2, C1step3, C1step4, C1step5, C1step6,
        C1step7, C1step8, C1step9, C1step10]
    have h2 := C1fillsPosition
    unfold C1finalPosition C1events
    rw [runE_append, hbooks]
    dsimp only
    cases h3 : runE (C1state 10) C1fillEvents with
    | error er => rw [h3] at h2; simp [Except.map] at h2
    | ok q =>
        rw [h3] at h2
        dsimp only
        simp only [Except.map] at h2 ⊢
        simpa using h2
  · decide

theorem flatStep1 : step initState flatBook = .ok (flatState1,
    [Command.insertOrder 1 Side.buy 10000 10 Lifespan.goodForDay,
     Command.insertOrder 2 Side.sell 30000 10 Lifespan.goodForDay]) := by
  decide

theorem flatStep2 : step flatState1 flatBook = .ok (flatState2,
    [Command.cancelOrder 2,
     Command.insertOrder 3 Side.sell 30000 10 Lifespan.goodForDay]) := by
  decide

theorem C7statusStep : step flatState1 (.orderStatus 1 0 0 0) = .ok (C7state2, []) := by
  decide

theorem c8step1 : step initState c8book1 = .ok (C8state1,
    [Command.insertOrder 1 Side.buy 500 10 Lifespan.goodForDay,
     Command.insertOrder 2 Side.sell 500 10 Lifespan.goodForDay]) := by
  decide

theorem c8step2 : step C8state1 c8book2 = .ok (C8state2,
    [Command.cancelOrder 1, Command.cancelOrder 2,
     Command.insertOrder 3 Side.buy 100 10 Lifespan.goodForDay,
     Command.insertOrder 4 Side.sell 200 10 Lifespan.goodForDay]) := by
  decide

/-- C2 counterexample: two identical flat book updates leave the ask
tracking set at size 2 (the cancelled ask 2 still tracked next to the
freshly inserted ask 3), refuting the size at most 1 claim. -/
theorem C2_tracking_size_cex : C2askCard = .ok 2 ∧ ¬(2 ≤ 1) := by
  constructor
  · unfold C2askCard C2events
    simp [runE, flatStep1, flatStep2, Except.map, flatState2]
  · decide

/-- C4 counterexample: on the reachable state after one flat book
update, the next identical update issues a cancel for the resting ask
even though the new ask target equals the resting ask price exactly
(gradient 0), so the ask side own-target divergence condition of the
claim is false: the code compares the bid target at line 212. -/
theorem C4_ask_replace_cex :
    runE initState [flatBook] = .ok (flatState1,
      [Command.insertOrder 1 Side.buy 10000 10 Lifespan.goodForDay,
       Command.insertOrder 2 Side.sell 30000 10 Lifespan.goodForDay]) ∧
    bookSignals flatState1 [30000, 30000, 30000, 30000, 30000] [1, 1, 1, 1, 1]
      [10000, 10000, 10000, 10000, 10000] [1, 1, 1, 1, 1] = .ok C4decision ∧
    on_order_book_update_message flatState1 0 2 [30000, 30000, 30000, 30000, 30000]
      [1, 1, 1, 1, 1] [10000, 10000, 10000, 10000, 10000] [1, 1, 1, 1, 1]
      = .ok (reconcile C4decision) ∧
    Command.cancelOrder flatState1.ask_id ∈ (reconcile C4decision).2 ∧
    flatState1.ask_id ≠ 0 ∧
    ¬(qi C4decision.new_ask_price >
        qmul (qi flatState1.ask_price) (qadd (qi 1) C4decision.grad_ask) ∨
      qi C4decision.new_ask_price <
        qmul (qi flatState1.ask_price) (qsub (qi 1) C4decision.grad_ask)) :=
  ⟨by simp [runE, flatStep1], by decide, by decide, by decide, by decide, by decide⟩

/-- C7 counterexample: on the reachable state with an idle bid slot, a
flat book update computes deviation_bid = true with the RSI overbought
flag false, and the buy insert is issued anyway: the deviation guard
alone does not veto entry, because line 218 requires (not deviation_bid
or not over_bought_rsi). -/
theorem C7_deviation_guard_cex :
    runE initState [flatBook, .orderStatus 1 0 0 0] = .ok (C7state2,
      [Command.insertOrder 1 Side.buy 10000 10 Lifespan.goodForDay,
       Command.insertOrder 2 Side.sell 30000 10 Lifespan.goodForDay]) ∧
    bookSignals C7state2 [30000, 30000, 30000, 30000, 30000] [1, 1, 1, 1, 1]
      [10000, 10000, 10000, 10000, 10000] [1, 1, 1, 1, 1] = .ok C7decision ∧
    on_order_book_update_message C7state2 0 2 [30000, 30000, 30000, 30000, 30000]
      [1, 1, 1, 1, 1] [10000, 10000, 10000, 10000, 10000] [1, 1, 1, 1, 1]
      = .ok (reconcile C7decision) ∧
    C7decision.deviation_bid = true ∧ C7decision.over_bought_rsi = false ∧
    Command.insertOrder 3 Side.buy 10000 10 Lifespan.goodForDay ∈ (reconcile C7decision).2 :=
  ⟨by simp [runE, flatStep1, C7statusStep], by decide, by decide, by decide, by decide,
   by decide⟩

/-- C8 counterexample: on the reachable state with ask history
500, 300 and a third update whose ask levels 1..3 sit at 100 (perfect
falling line, so the strong trend branch extrapolates check_ask = -100)
while the ask touch is 50, the code publishes ask target 0 (the inner
max with 0 at line 186) while the formula of the claim, rounding then
clamping to at least bestAsk minus one tick, gives -50. -/
theorem C8_ask_clamp_cex :
    runE initState [c8book1, c8book2] = .ok (C8state2,
      [Command.insertOrder 1 Side.buy 500 10 Lifespan.goodForDay,
       Command.insertOrder 2 Side.sell 500 10 Lifespan.goodForDay,
       Command.cancelOrder 1, Command.cancelOrder 2,
       Command.insertOrder 3 Side.buy 100 10 Lifespan.goodForDay,
       Command.insertOrder 4 Side.sell 200 10 Lifespan.goodForDay]) ∧
    bookSignals C8state2 [50, 100, 100, 100, 100] [1, 1, 1, 1, 1]
      [100, 100, 100, 100, 100] [1, 1, 1, 1, 1] = .ok C8decision ∧
    C8decision.check_ask = qi (-100) ∧
    C8decision.new_ask_price = 0 ∧
    specAskTarget C8decision.check_ask 50 = -50 ∧
    C8decision.new_ask_price ≠ specAskTarget C8decision.check_ask 50 := by
  refine ⟨by simp [runE, c8step1, c8step2], by decide, by decide, by decide, ?_, ?_⟩
  · have h : C8decision.check_ask = qi (-100) := by decide
    rw [h]
    have hf : Rat.floor (qdiv (qi (-100)) (qi TICK_SIZE_IN_CENTS)) * TICK_SIZE_IN_CENTS
        = -100 := by decide
    unfold specAskTarget
    rw [hf]
    decide
  · have h : C8decision.check_ask = qi (-100) := by decide
    have h4 : C8decision.new_ask_price = 0 := by decide
    rw [h, h4]
    have hf : Rat.floor (qdiv (qi (-100)) (qi TICK_SIZE_IN_CENTS)) * TICK_SIZE_IN_CENTS
        = -100 := by decide
    unfold specAskTarget
    rw [hf]
    decide

/-- C6 counterexample: on the 11 sample series C6series the code
computes RSI 90 (its seed compares the last sample against each of the
10 predecessors) while the reference Wilder computation over the same
series gives 200/3 (seed from the 10 consecutive deltas). -/
theorem C6_rsi_reference_cex :
    (codeRsi C6series).map (fun p => p.2) = .ok (qi 90) ∧
    wilderRsi C6series = some (qdiv (qi 200) (qi 3)) ∧ qi 90 ≠ qdiv (qi 200) (qi 3) := by
  refine ⟨by decide, by decide, by decide⟩

/-- C9: a book update for any instrument other than the tracked FUTURE
leaves the whole session state unchanged and issues no outbound
command. -/
theorem C9_frame_other_instrument (s : TraderState) (inst seq : Nat)
    (ap av bp bv : List Int) (h : inst ≠ Instrument.FUTURE) :
    on_order_book_update_message s inst seq ap av bp bv = .ok (s, []) := by
  unfold on_order_book_update_message
  rw [if_neg h]

/-- Witness for C9 at the ETF instrument (1). -/
theorem C9_frame_other_instrument_witness :
    on_order_book_update_message initState 1 1 [] [] [] [] = .ok (initState, []) :=
  C9_frame_other_instrument initState 1 1 [] [] [] [] (by decide)

/-- C8 as amended by the counterexample: the published bid target is
the model bid price rounded down to the tick and clamped into
[0, bestBid + one tick]; the published ask target is the model ask
price rounded down to the tick, clamped to at least bestAsk - one tick
and additionally floored at zero; a zero ask touch gives ask target
zero; and a zero bid touch makes the whole update a no-op, so neither
side is quoted. -/
theorem C8_targets_amended (cb ca : ℚ) (bt at' : Int) :
    (0 ≤ bt → bt ≠ 0 → bidTarget cb bt = specBidTarget cb bt) ∧
    (at' ≠ 0 → askTarget ca at' = max (specAskTarget ca at') 0) ∧
    askTarget ca 0 = 0 ∧
    (∀ (s : TraderState) (seq : Nat) (ap av bp bv : List Int), pyGet bp 0 = 0 →
      on_order_book_update_message s 0 seq ap av bp bv = .ok (s, [])) := by
  refine ⟨fun hge hne => ?_, fun hne => ?_, ?_, fun s seq ap av bp bv h => ?_⟩
  · unfold bidTarget specBidTarget pyMin pyMax TICK_SIZE_IN_CENTS
    rw [if_pos hne]
    simp only [max_def, min_def]
    split_ifs <;> omega
  · unfold askTarget specAskTarget pyMax TICK_SIZE_IN_CENTS
    rw [if_pos hne]
    simp only [max_def]
    split_ifs <;> omega
  · simp [askTarget]
  · unfold on_order_book_update_message
    rw [if_pos (by rfl), if_neg (by simp [h])]

/-- Witness for C8 amended: a flat bid model price of 10050 against
touch 10000, and the counterexample ask numbers. -/
theorem C8_targets_amended_witness :
    bidTarget (qi 10050) 10000 = specBidTarget (qi 10050) 10000 ∧
    askTarget (qi (-100)) 50 = max (specAskTarget (qi (-100)) 50) 0 ∧
    askTarget (qi (-100)) 0 = 0 :=
  ⟨(C8_targets_amended (qi 10050) (qi (-100)) 10000 50).1 (by decide) (by decide),
   (C8_targets_amended (qi 10050) (qi (-100)) 10000 50).2.1 (by decide),
   (C8_targets_amended (qi 10050) (qi (-100)) 10000 50).2.2.1⟩

/-! ### Bridge theorems: the mkRat operations are the field operations -/

theorem qi_eq (n : Int) : qi n = (n : ℚ) := rfl

theorem qadd_eq (a b : ℚ) : qadd a b = a + b := (Rat.add_def' a b).symm

theorem qsub_eq (a b : ℚ) : qsub a b = a - b := (Rat.sub_def' a b).symm

theorem qmul_eq (a b : ℚ) : qmul a b = a * b := by
  rw [qmul, Rat.mkRat_eq_div]
  push_cast
  rw [← div_mul_div_comm, Rat.num_div_den, Rat.num_div_den]

theorem qinv_eq (a : ℚ) : qinv a = a⁻¹ := by
  unfold qinv
  split_ifs with h
  · rw [Rat.mkRat_eq_div, ← Rat.num_div_den a, inv_div, Rat.num_div_den]
    congr 1
    rw [← Int.cast_natCast, Int.toNat_of_nonneg h]
  · rw [Rat.mkRat_eq_div, ← Rat.num_div_den a, inv_div, Rat.num_div_den]
    have h2 : ((-a.num).toNat : Int) = -a.num := Int.toNat_of_nonneg (by omega)
    have h3 : (((-a.num).toNat : Nat) : ℚ) = ((-a.num : Int) : ℚ) := by exact_mod_cast h2
    rw [h3]
    push_cast
    rw [neg_div_neg_eq]

theorem qdiv_eq (a b : ℚ) : qdiv a b = a / b := by
  rw [qdiv, qmul_eq, qinv_eq, div_eq_mul_inv]

theorem sq_eq (a : ℚ) : sq a = a * a := qmul_eq a a

theorem qsum_eq (l : List ℚ) : qsum l = l.sum := by
  have h : ∀ (acc : ℚ), l.foldl qadd acc = acc + l.sum := by
    induction l with
    | nil => intro acc; simp
    | cons x xs ih => intro acc; simp [ih, qadd_eq, add_assoc]
  rw [qsum, h, qi_eq]
  simp

theorem insertStep_buy_guard (d : Decision) (s : TraderState) (id : Nat) (p v : Int)
    (ls : Lifespan)
    (hm : Command.insertOrder id Side.buy p v ls ∈ (insertStep d s).2) :
    (insertStep d s).1.position + (insertStep d s).1.bid_ordered ≤ POSITION_LIMIT := by
  unfold insertStep at hm ⊢
  split_ifs at hm ⊢ with h1 h2
  all_goals dsimp only at hm ⊢
  all_goals split_ifs at hm ⊢ with h3
  all_goals dsimp only at hm ⊢
  all_goals
    simp only [List.nil_append, List.append_nil, List.mem_append, List.mem_singleton,
      List.mem_cons, List.not_mem_nil, or_false, false_or] at hm
  all_goals first
    | (simp at hm; done)
    | (obtain ⟨-, -, h4, -⟩ := h1; simp only [LOT_SIZE, POSITION_LIMIT] at h4 ⊢; omega)

theorem insertStep_sell_guard (d : Decision) (s : TraderState) (id : Nat) (p v : Int)
    (ls : Lifespan)
    (hm : Command.insertOrder id Side.sell p v ls ∈ (insertStep d s).2) :
    -POSITION_LIMIT ≤ (insertStep d s).1.position - (insertStep d s).1.ask_ordered := by
  unfold insertStep at hm ⊢
  split_ifs at hm ⊢ with h1 h2
  all_goals dsimp only at hm ⊢
  all_goals split_ifs at hm ⊢ with h3
  all_goals dsimp only at hm ⊢
  all_goals
    simp only [List.nil_append, List.append_nil, List.mem_append, List.mem_singleton,
      List.mem_cons, List.not_mem_nil, or_false, false_or] at hm
  all_goals first
    | (simp at hm; done)
    | (obtain ⟨-, -, h4, -⟩ := h3; simp only [LOT_SIZE, POSITION_LIMIT] at h4 ⊢; omega)

theorem replaceStep_cancels (d : Decision) (c : Command) (hc : c ∈ (replaceStep d).2) :
    ∃ i, c = Command.cancelOrder i := by
  unfold replaceStep at hc
  dsimp only at hc
  split_ifs at hc
  all_goals try dsimp only at hc
  all_goals try split_ifs at hc
  all_goals try dsimp only at hc
  all_goals
    simp only [List.nil_append, List.append_nil, List.mem_append, List.mem_singleton,
      List.mem_cons, List.not_mem_nil, or_false, false_or] at hc
  all_goals first
    | (simp at hc; done)
    | (rcases hc with hc | hc <;> exact ⟨_, hc⟩)
    | exact ⟨_, hc⟩

theorem reconcile_buy_guard (d : Decision) (id : Nat) (p v : Int) (ls : Lifespan)
    (hm : Command.insertOrder id Side.buy p v ls ∈ (reconcile d).2) :
    (reconcile d).1.position + (reconcile d).1.bid_ordered ≤ POSITION_LIMIT := by
  unfold reconcile at hm ⊢
  dsimp only at hm ⊢
  rw [List.mem_append] at hm
  cases hm with
  | inl h => obtain ⟨i, hi⟩ := replaceStep_cancels d _ h; simp at hi
  | inr h => exact insertStep_buy_guard d _ id p v ls h

theorem reconcile_sell_guard (d : Decision) (id : Nat) (p v : Int) (ls : Lifespan)
    (hm : Command.insertOrder id Side.sell p v ls ∈ (reconcile d).2) :
    -POSITION_LIMIT ≤ (reconcile d).1.position - (reconcile d).1.ask_ordered := by
  unfold reconcile at hm ⊢
  dsimp only at hm ⊢
  rw [List.mem_append] at hm
  cases hm with
  | inl h => obtain ⟨i, hi⟩ := replaceStep_cancels d _ h; simp at hi
  | inr h => exact insertStep_sell_guard d _ id p v ls h

/-- C1 (amended): the position-after-fills half of the claim fails (see
the counterexample), but the insert-time guard half holds: whenever a
book update emits a buy insert, the updated state satisfies
position plus bid pending at most POSITION_LIMIT, and whenever it
emits a sell insert, position minus ask pending is at least
-POSITION_LIMIT. -/
theorem C1_insert_guard (s : TraderState) (inst seq : Nat)
    (ap av bp bv : List Int) (pr : TraderState × List Command)
    (h : on_order_book_update_message s inst seq ap av bp bv = .ok pr) :
    (∀ id p v ls, Command.insertOrder id Side.buy p v ls ∈ pr.2 →
        pr.1.position + pr.1.bid_ordered ≤ POSITION_LIMIT) ∧
    (∀ id p v ls, Command.insertOrder id Side.sell p v ls ∈ pr.2 →
        -POSITION_LIMIT ≤ pr.1.position - pr.1.ask_ordered) := by
  unfold on_order_book_update_message at h
  split_ifs at h
  · cases hb : bookSignals s ap av bp bv with
    | error e => rw [hb] at h; cases h
    | ok d =>
      rw [hb] at h
      injection h with h
      subst h
      constructor
      · intro id p v ls hm; exact reconcile_buy_guard d id p v ls hm
      · intro id p v ls hm; exact reconcile_sell_guard d id p v ls hm
  · injection h with h
    subst h
    constructor <;> intro id p v ls hm <;> simp at hm
  · injection h with h
    subst h
    constructor <;> intro id p v ls hm <;> simp at hm

/-- Witness for C1 amended: the first flat book update from the fresh
state emits buy insert 1 and the bound holds in the resulting state. -/
theorem C1_insert_guard_witness :
    on_order_book_update_message initState 0 1 [30000, 30000, 30000, 30000, 30000]
        [1, 1, 1, 1, 1] [10000, 10000, 10000, 10000, 10000] [1, 1, 1, 1, 1] =
      .ok (flatState1,
        [Command.insertOrder 1 Side.buy 10000 10 Lifespan.goodForDay,
         Command.insertOrder 2 Side.sell 30000 10 Lifespan.goodForDay]) ∧
    flatState1.position + flatState1.bid_ordered ≤ POSITION_LIMIT := by
  constructor
  · decide
  · exact (C1_insert_guard initState 0 1 [30000, 30000, 30000, 30000, 30000]
      [1, 1, 1, 1, 1] [10000, 10000, 10000, 10000, 10000] [1, 1, 1, 1, 1]
      (flatState1,
        [Command.insertOrder 1 Side.buy 10000 10 Lifespan.goodForDay,
         Command.insertOrder 2 Side.sell 30000 10 Lifespan.goodForDay])
      (by decide)).1 1 10000 10 Lifespan.goodForDay (by decide)

theorem cancelsOf_append (a b : List Command) :
    cancelsOf (a ++ b) = cancelsOf a ++ cancelsOf b :=
  List.filter_append a b

theorem cancelsOf_insertStep (d : Decision) (s : TraderState) :
    cancelsOf (insertStep d s).2 = [] := by
  unfold insertStep
  split_ifs
  all_goals try dsimp only
  all_goals try split_ifs
  all_goals rfl

theorem replaceStep_cmds_eq (d : Decision) :
    (replaceStep d).2 =
      (if d.s.bid_id ≠ 0 ∧ d.new_bid_price ≠ 0 ∧
          (qi d.new_bid_price > qmul (qi d.s.bid_price) (qadd (qi 1) d.grad_bid) ∨
           qi d.new_bid_price < qmul (qi d.s.bid_price) (qsub (qi 1) d.grad_bid)) then
        [Command.cancelOrder d.s.bid_id] else []) ++
      (if d.s.ask_id ≠ 0 ∧ d.new_ask_price ≠ 0 ∧
          (qi d.new_bid_price > qmul (qi d.s.ask_price) (qadd (qi 1) d.grad_ask) ∨
           qi d.new_bid_price < qmul (qi d.s.ask_price) (qsub (qi 1) d.grad_ask)) then
        [Command.cancelOrder d.s.ask_id] else []) := by
  unfold replaceStep
  dsimp only
  split_ifs <;> rfl

/-- C4 (amended): on a book update the cancels sent are exactly one per
firing side; the bid side fires on its own target against the resting
bid price, but the ask side fires on the new BID target against the
resting ask price (line 212), not on its own ask target as the claim
states. -/
theorem C4_replace_rule (s : TraderState) (inst seq : Nat)
    (ap av bp bv : List Int) (pr : TraderState × List Command) (d : Decision)
    (h : on_order_book_update_message s inst seq ap av bp bv = .ok pr)
    (hd : bookSignals s ap av bp bv = .ok d)
    (hinst : inst = Instrument.FUTURE) (hbp : pyGet bp 0 ≠ 0) :
    cancelsOf pr.2 =
      (if d.s.bid_id ≠ 0 ∧ d.new_bid_price ≠ 0 ∧
          ((d.new_bid_price : ℚ) > (d.s.bid_price : ℚ) * (1 + d.grad_bid) ∨
           (d.new_bid_price : ℚ) < (d.s.bid_price : ℚ) * (1 - d.grad_bid)) then
        [Command.cancelOrder d.s.bid_id] else []) ++
      (if d.s.ask_id ≠ 0 ∧ d.new_ask_price ≠ 0 ∧
          ((d.new_bid_price : ℚ) > (d.s.ask_price : ℚ) * (1 + d.grad_ask) ∨
           (d.new_bid_price : ℚ) < (d.s.ask_price : ℚ) * (1 - d.grad_ask)) then
        [Command.cancelOrder d.s.ask_id] else []) := by
  subst hinst
  unfold on_order_book_update_message at h
  rw [if_pos rfl, if_pos hbp, hd] at h
  injection h with h
  subst h
  unfold reconcile
  dsimp only
  rw [cancelsOf_append, cancelsOf_insertStep, List.append_nil, replaceStep_cmds_eq,
    cancelsOf_append]
  simp only [qi_eq, qadd_eq, qsub_eq, qmul_eq, Int.cast_one]
  split_ifs <;> rfl

/-- Witness for C4 amended: the second flat book update, where the ask
cancel fires through the bid target comparison. -/
theorem C4_replace_rule_witness :
    on_order_book_update_message flatState1 0 2 [30000, 30000, 30000, 30000, 30000]
        [1, 1, 1, 1, 1] [10000, 10000, 10000, 10000, 10000] [1, 1, 1, 1, 1]
      = .ok (reconcile C4decision) ∧
    cancelsOf (reconcile C4decision).2 =
      (if C4decision.s.bid_id ≠ 0 ∧ C4decision.new_bid_price ≠ 0 ∧
          ((C4decision.new_bid_price : ℚ) >
              (C4decision.s.bid_price : ℚ) * (1 + C4decision.grad_bid) ∨
           (C4decision.new_bid_price : ℚ) <
              (C4decision.s.bid_price : ℚ) * (1 - C4decision.grad_bid)) then
        [Command.cancelOrder C4decision.s.bid_id] else []) ++
      (if C4decision.s.ask_id ≠ 0 ∧ C4decision.new_ask_price ≠ 0 ∧
          ((C4decision.new_bid_price : ℚ) >
              (C4decision.s.ask_price : ℚ) * (1 + C4decision.grad_ask) ∨
           (C4decision.new_bid_price : ℚ) <
              (C4decision.s.ask_price : ℚ) * (1 - C4decision.grad_ask)) then
        [Command.cancelOrder C4decision.s.ask_id] else []) :=
  ⟨by decide,
   C4_replace_rule flatState1 0 2 [30000, 30000, 30000, 30000, 30000]
     [1, 1, 1, 1, 1] [10000, 10000, 10000, 10000, 10000] [1, 1, 1, 1, 1]
     (reconcile C4decision) C4decision (by decide) (by decide) rfl (by decide)⟩

theorem insertStep_buy_mem (d : Decision) (s : TraderState) :
    (∃ id p v ls, Command.insertOrder id Side.buy p v ls ∈ (insertStep d s).2) ↔
      (s.bid_id = 0 ∧ d.new_bid_price ≠ 0 ∧
       s.bid_ordered + s.position + LOT_SIZE < POSITION_LIMIT ∧
       (d.deviation_bid = false ∨ d.over_bought_rsi = false)) := by
  unfold insertStep
  split_ifs with h1
  all_goals try dsimp only
  all_goals try split_ifs with h3
  all_goals try dsimp only
  · exact ⟨fun _ => h1,
      fun _ => ⟨s.nextOrderId, d.new_bid_price, LOT_SIZE, Lifespan.goodForDay, by simp⟩⟩
  · exact ⟨fun _ => h1,
      fun _ => ⟨s.nextOrderId, d.new_bid_price, LOT_SIZE, Lifespan.goodForDay, by simp⟩⟩
  · constructor
    · rintro ⟨id, p, v, ls, hm⟩
      simp at hm
    · intro hr
      exact absurd hr h1
  · constructor
    · rintro ⟨id, p, v, ls, hm⟩
      simp at hm
    · intro hr
      exact absurd hr h1

theorem insertStep_sell_mem (d : Decision) (s : TraderState) :
    (∃ id p v ls, Command.insertOrder id Side.sell p v ls ∈ (insertStep d s).2) ↔
      (s.ask_id = 0 ∧ d.new_ask_price ≠ 0 ∧
       s.position - s.ask_ordered - LOT_SIZE > -POSITION_LIMIT ∧
       (d.deviation_ask = false ∨ d.over_sold_rsi = false)) := by
  unfold insertStep
  split_ifs with h1
  all_goals try dsimp only
  all_goals try split_ifs with h3
  all_goals try dsimp only
  · exact ⟨fun _ => h3,
      fun _ => ⟨s.nextOrderId + 1, d.new_ask_price, LOT_SIZE, Lifespan.goodForDay, by simp⟩⟩
  · constructor
    · rintro ⟨id, p, v, ls, hm⟩
      simp at hm
    · intro hr
      exact absurd hr h3
  · exact ⟨fun _ => h3,
      fun _ => ⟨s.nextOrderId, d.new_ask_price, LOT_SIZE, Lifespan.goodForDay, by simp⟩⟩
  · constructor
    · rintro ⟨id, p, v, ls, hm⟩
      simp at hm
    · intro hr
      exact absurd hr h3

theorem reconcile_buy_mem (d : Decision) :
    (∃ id p v ls, Command.insertOrder id Side.buy p v ls ∈ (reconcile d).2) ↔
      ((replaceStep d).1.bid_id = 0 ∧ d.new_bid_price ≠ 0 ∧
       (replaceStep d).1.bid_ordered + (replaceStep d).1.position + LOT_SIZE <
         POSITION_LIMIT ∧
       (d.deviation_bid = false ∨ d.over_bought_rsi = false)) := by
  rw [← insertStep_buy_mem d (replaceStep d).1]
  unfold reconcile
  dsimp only
  constructor
  · rintro ⟨id, p, v, ls, hm⟩
    rw [List.mem_append] at hm
    cases hm with
    | inl h => obtain ⟨i, hi⟩ := replaceStep_cancels d _ h; simp at hi
    | inr h => exact ⟨id, p, v, ls, h⟩
  · rintro ⟨id, p, v, ls, hm⟩
    exact ⟨id, p, v, ls, List.mem_append.2 (Or.inr hm)⟩

theorem reconcile_sell_mem (d : Decision) :
    (∃ id p v ls, Command.insertOrder id Side.sell p v ls ∈ (reconcile d).2) ↔
      ((replaceStep d).1.ask_id = 0 ∧ d.new_ask_price ≠ 0 ∧
       (replaceStep d).1.position - (replaceStep d).1.ask_ordered - LOT_SIZE >
         -POSITION_LIMIT ∧
       (d.deviation_ask = false ∨ d.over_sold_rsi = false)) := by
  rw [← insertStep_sell_mem d (replaceStep d).1]
  unfold reconcile
  dsimp only
  constructor
  · rintro ⟨id, p, v, ls, hm⟩
    rw [List.mem_append] at hm
    cases hm with
    | inl h => obtain ⟨i, hi⟩ := replaceStep_cancels d _ h; simp at hi
    | inr h => exact ⟨id, p, v, ls, h⟩
  · rintro ⟨id, p, v, ls, hm⟩
    exact ⟨id, p, v, ls, List.mem_append.2 (Or.inr hm)⟩

/-- C7 (amended): an insert on a side is emitted exactly when the side
is idle after the replace phase, the target is nonzero, the position
guard passes and NOT (deviation flag and RSI flag): the deviation
guard alone does not veto entry, contrary to the claim; the veto needs
the RSI flag as well (line 218: not deviation_bid or not
over_bought_rsi). -/
theorem C7_insert_veto_rule (s : TraderState) (inst seq : Nat)
    (ap av bp bv : List Int) (pr : TraderState × List Command) (d : Decision)
    (h : on_order_book_update_message s inst seq ap av bp bv = .ok pr)
    (hd : bookSignals s ap av bp bv = .ok d)
    (hinst : inst = Instrument.FUTURE) (hbp : pyGet bp 0 ≠ 0) :
    ((∃ id p v ls, Command.insertOrder id Side.buy p v ls ∈ pr.2) ↔
      ((replaceStep d).1.bid_id = 0 ∧ d.new_bid_price ≠ 0 ∧
       (replaceStep d).1.bid_ordered + (replaceStep d).1.position + LOT_SIZE <
         POSITION_LIMIT ∧
       (d.deviation_bid = false ∨ d.over_bought_rsi = false))) ∧
    ((∃ id p v ls, Command.insertOrder id Side.sell p v ls ∈ pr.2) ↔
      ((replaceStep d).1.ask_id = 0 ∧ d.new_ask_price ≠ 0 ∧
       (replaceStep d).1.position - (replaceStep d).1.ask_ordered - LOT_SIZE >
         -POSITION_LIMIT ∧
       (d.deviation_ask = false ∨ d.over_sold_rsi = false))) := by
  subst hinst
  unfold on_order_book_update_message at h
  rw [if_pos rfl, if_pos hbp, hd] at h
  injection h with h
  subst h
  exact ⟨reconcile_buy_mem d, reconcile_sell_mem d⟩

/-- Witness for C7 amended: the state with an idle bid slot where
deviation_bid is true, over_bought_rsi is false, and the buy insert is
emitted. -/
theorem C7_insert_veto_rule_witness :
    on_order_book_update_message C7state2 0 2 [30000, 30000, 30000, 30000, 30000]
        [1, 1, 1, 1, 1] [10000, 10000, 10000, 10000, 10000] [1, 1, 1, 1, 1]
      = .ok (reconcile C7decision) ∧
    ((∃ id p v ls, Command.insertOrder id Side.buy p v ls ∈ (reconcile C7decision).2) ↔
      ((replaceStep C7decision).1.bid_id = 0 ∧ C7decision.new_bid_price ≠ 0 ∧
       (replaceStep C7decision).1.bid_ordered + (replaceStep C7decision).1.position +
         LOT_SIZE < POSITION_LIMIT ∧
       (C7decision.deviation_bid = false ∨ C7decision.over_bought_rsi = false))) ∧
    ((∃ id p v ls, Command.insertOrder id Side.sell p v ls ∈ (reconcile C7decision).2) ↔
      ((replaceStep C7decision).1.ask_id = 0 ∧ C7decision.new_ask_price ≠ 0 ∧
       (replaceStep C7decision).1.position - (replaceStep C7decision).1.ask_ordered -
         LOT_SIZE > -POSITION_LIMIT ∧
       (C7decision.deviation_ask = false ∨ C7decision.over_sold_rsi = false))) := by
  refine ⟨by decide, ?_⟩
  exact C7_insert_veto_rule C7state2 0 2 [30000, 30000, 30000, 30000, 30000]
    [1, 1, 1, 1, 1] [10000, 10000, 10000, 10000, 10000] [1, 1, 1, 1, 1]
    (reconcile C7decision) C7decision (by decide) (by decide) rfl (by decide)

theorem bookSignals_frame (s : TraderState) (ap av bp bv : List Int) (d : Decision)
    (h : bookSignals s ap av bp bv = .ok d) :
    d.s.bids = s.bids ∧ d.s.asks = s.asks ∧ d.s.nextOrderId = s.nextOrderId ∧
    d.s.bid_id = s.bid_id ∧ d.s.ask_id = s.ask_id ∧ d.s.position = s.position ∧
    d.s.bid_ordered = s.bid_ordered ∧ d.s.ask_ordered = s.ask_ordered ∧
    d.s.bid_price = s.bid_price ∧ d.s.ask_price = s.ask_price := by
  unfold bookSignals at h
  split at h
  · cases h
  · split at h
    · cases h
    · dsimp only at h
      split at h
      · cases h
      · injection h with h
        subst h
        exact ⟨rfl, rfl, rfl, rfl, rfl, rfl, rfl, rfl, rfl, rfl⟩

theorem mem_pyAdd {i n : Nat} {l : List Nat} : i ∈ pyAdd n l ↔ i ∈ l ∨ i = n := by
  unfold pyAdd
  split_ifs with h
  · exact ⟨Or.inl, fun hc => hc.elim id fun e => e ▸ h⟩
  · simp [List.mem_append]

theorem mem_pyDiscard {i n : Nat} {l : List Nat} : i ∈ pyDiscard n l ↔ i ∈ l ∧ i ≠ n := by
  unfold pyDiscard
  simp [List.mem_filter]

theorem idsOf_append (a b : List Command) : idsOf (a ++ b) = idsOf a ++ idsOf b := by
  induction a with
  | nil => rfl
  | cons c cs ih => cases c <;> simp [idsOf, ih]

theorem replaceStep_frame (d : Decision) :
    (replaceStep d).1.bids = d.s.bids ∧ (replaceStep d).1.asks = d.s.asks ∧
    (replaceStep d).1.nextOrderId = d.s.nextOrderId ∧
    (replaceStep d).1.position = d.s.position := by
  unfold replaceStep
  dsimp only
  split_ifs <;> exact ⟨rfl, rfl, rfl, rfl⟩

theorem idsOf_replaceStep (d : Decision) : idsOf (replaceStep d).2 = [] := by
  unfold replaceStep
  dsimp only
  split_ifs <;> rfl

theorem replaceStep_track_bid (d : Decision) (Q : Nat → Prop)
    (hold : ∀ j ∈ d.s.bids, j = d.s.bid_id ∨ Q j)
    (i : Nat) (hi : i ∈ (replaceStep d).1.bids) :
    i = (replaceStep d).1.bid_id ∨ Q i ∨ Command.cancelOrder i ∈ (replaceStep d).2 := by
  unfold replaceStep at hi ⊢
  dsimp only at hi ⊢
  split_ifs at hi ⊢
  all_goals try dsimp only at hi ⊢
  all_goals rcases hold i hi with h | h
  all_goals first
    | (right; left; exact h)
    | (left; exact h)
    | (right; right; simp [h])

theorem replaceStep_track_ask (d : Decision) (Q : Nat → Prop)
    (hold : ∀ j ∈ d.s.asks, j = d.s.ask_id ∨ Q j)
    (i : Nat) (hi : i ∈ (replaceStep d).1.asks) :
    i = (replaceStep d).1.ask_id ∨ Q i ∨ Command.cancelOrder i ∈ (replaceStep d).2 := by
  unfold replaceStep at hi ⊢
  dsimp only at hi ⊢
  split_ifs at hi ⊢
  all_goals try dsimp only at hi ⊢
  all_goals rcases hold i hi with h | h
  all_goals first
    | (right; left; exact h)
    | (left; exact h)
    | (right; right; simp [h])

theorem insertStep_track_bid (d : Decision) (s : TraderState) (Q : Nat → Prop)
    (hold : ∀ j ∈ s.bids, j = s.bid_id ∨ Q j)
    (hpos : ∀ j ∈ s.bids, 0 < j)
    (i : Nat) (hi : i ∈ (insertStep d s).1.bids) :
    i = (insertStep d s).1.bid_id ∨ Q i := by
  unfold insertStep at hi ⊢
  split_ifs at hi ⊢ with h1
  all_goals try dsimp only at hi ⊢
  all_goals try split_ifs at hi ⊢ with h3
  all_goals try dsimp only at hi ⊢
  all_goals first
    | (rcases mem_pyAdd.1 hi with h | h
       · rcases hold i h with h2 | h2
         · have hp := hpos i h
           rw [h2, h1.1] at hp
           exact absurd hp (Nat.lt_irrefl 0)
         · exact Or.inr h2
       · exact Or.inl h)
    | (rcases hold i hi with h | h
       · exact Or.inl h
       · exact Or.inr h)

theorem insertStep_track_ask (d : Decision) (s : TraderState) (Q : Nat → Prop)
    (hold : ∀ j ∈ s.asks, j = s.ask_id ∨ Q j)
    (hpos : ∀ j ∈ s.asks, 0 < j)
    (i : Nat) (hi : i ∈ (insertStep d s).1.asks) :
    i = (insertStep d s).1.ask_id ∨ Q i := by
  unfold insertStep at hi ⊢
  split_ifs at hi ⊢ with h1
  all_goals try dsimp only at hi ⊢
  all_goals try split_ifs at hi ⊢ with h3
  all_goals try dsimp only at hi ⊢
  all_goals first
    | (rcases mem_pyAdd.1 hi with h | h
       · rcases hold i h with h2 | h2
         · have hp := hpos i h
           rw [h2, h3.1] at hp
           exact absurd hp (Nat.lt_irrefl 0)
         · exact Or.inr h2
       · exact Or.inl h)
    | (rcases hold i hi with h | h
       · exact Or.inl h
       · exact Or.inr h)

theorem insertStep_inv (d : Decision) (s : TraderState) (hs : Inv s) :
    Inv (insertStep d s).1 ∧ s.nextOrderId ≤ (insertStep d s).1.nextOrderId ∧
    List.Pairwise (fun a b => a < b) (idsOf (insertStep d s).2) ∧
    (∀ i ∈ idsOf (insertStep d s).2,
      s.nextOrderId ≤ i ∧ i < (insertStep d s).1.nextOrderId) := by
  obtain ⟨pos0, bids_lt, asks_lt, bids_pos, asks_pos, disj⟩ := hs
  unfold insertStep
  split_ifs with h1
  all_goals try dsimp only
  all_goals try split_ifs with h3
  all_goals try dsimp only
  · refine ⟨⟨?_, ?_, ?_, ?_, ?_, ?_⟩, ?_, ?_, ?_⟩ <;> dsimp only
    · omega
    · intro i hi
      rcases mem_pyAdd.1 hi with h | h
      · have := bids_lt i h; omega
      · omega
    · intro i hi
      rcases mem_pyAdd.1 hi with h | h
      · have := asks_lt i h; omega
      · omega
    · intro i hi
      rcases mem_pyAdd.1 hi with h | h
      · exact bids_pos i h
      · omega
    · intro i hi
      rcases mem_pyAdd.1 hi with h | h
      · exact asks_pos i h
      · omega
    · intro i hi hco
      rcases mem_pyAdd.1 hi with h | h <;> rcases mem_pyAdd.1 hco with h2 | h2
      · exact disj i h h2
      · have := bids_lt i h; omega
      · have := asks_lt i h2; omega
      · omega
    · omega
    · simp [idsOf]
    · intro i hi
      simp [idsOf] at hi
      rcases hi with rfl | rfl <;> omega
  · refine ⟨⟨?_, ?_, ?_, ?_, ?_, ?_⟩, ?_, ?_, ?_⟩ <;> dsimp only
    · omega
    · intro i hi
      rcases mem_pyAdd.1 hi with h | h
      · have := bids_lt i h; omega
      · omega
    · intro i hi
      have := asks_lt i hi; omega
    · intro i hi
      rcases mem_pyAdd.1 hi with h | h
      · exact bids_pos i h
      · omega
    · exact asks_pos
    · intro i hi hco
      rcases mem_pyAdd.1 hi with h | h
      · exact disj i h hco
      · have := asks_lt i hco; omega
    · omega
    · simp [idsOf]
    · intro i hi
      simp [idsOf] at hi
      subst hi
      omega
  · refine ⟨⟨?_, ?_, ?_, ?_, ?_, ?_⟩, ?_, ?_, ?_⟩ <;> dsimp only
    · omega
    · intro i hi
      have := bids_lt i hi; omega
    · intro i hi
      rcases mem_pyAdd.1 hi with h | h
      · have := asks_lt i h; omega
      · omega
    · exact bids_pos
    · intro i hi
      rcases mem_pyAdd.1 hi with h | h
      · exact asks_pos i h
      · omega
    · intro i hi hco
      rcases mem_pyAdd.1 hco with h | h
      · exact disj i hi h
      · have := bids_lt i hi; omega
    · omega
    · simp [idsOf]
    · intro i hi
      simp [idsOf] at hi
      subst hi
      omega
  · exact ⟨⟨pos0, bids_lt, asks_lt, bids_pos, asks_pos, disj⟩, le_refl _, by simp [idsOf],
      by intro i hi; simp [idsOf] at hi⟩

theorem Inv_of_frame {s t : TraderState} (hs : Inv s)
    (hb : t.bids = s.bids) (ha : t.asks = s.asks) (hn : t.nextOrderId = s.nextOrderId) :
    Inv t := by
  obtain ⟨pos0, bids_lt, asks_lt, bids_pos, asks_pos, disj⟩ := hs
  exact ⟨by rw [hn]; exact pos0, by rw [hb, hn]; exact bids_lt, by rw [ha, hn]; exact asks_lt,
    by rw [hb]; exact bids_pos, by rw [ha]; exact asks_pos, by rw [hb, ha]; exact disj⟩

theorem reconcile_inv_track (d : Decision) (hs : Inv d.s) (cs0 : List Command)
    (ht : TrackInv d.s cs0) :
    Inv (reconcile d).1 ∧ d.s.nextOrderId ≤ (reconcile d).1.nextOrderId ∧
    List.Pairwise (fun a b => a < b) (idsOf (reconcile d).2) ∧
    (∀ i ∈ idsOf (reconcile d).2, d.s.nextOrderId ≤ i ∧ i < (reconcile d).1.nextOrderId) ∧
    TrackInv (reconcile d).1 (cs0 ++ (reconcile d).2) := by
  obtain ⟨f1, f2, f3, -⟩ := replaceStep_frame d
  have hinv1 : Inv (replaceStep d).1 := Inv_of_frame hs f1 f2 f3
  obtain ⟨hinv2, hle2, hpw2, hbd2⟩ := insertStep_inv d (replaceStep d).1 hinv1
  have hrec1 : (reconcile d).1 = (insertStep d (replaceStep d).1).1 := rfl
  have hrec2 : (reconcile d).2 = (replaceStep d).2 ++ (insertStep d (replaceStep d).1).2 := rfl
  have hids : idsOf (reconcile d).2 = idsOf (insertStep d (replaceStep d).1).2 := by
    rw [hrec2, idsOf_append, idsOf_replaceStep, List.nil_append]
  refine ⟨hrec1 ▸ hinv2, ?_, ?_, ?_, ?_, ?_⟩
  · rw [hrec1, ← f3]
    exact hle2
  · rw [hids]
    exact hpw2
  · intro i hi
    rw [hids] at hi
    have := hbd2 i hi
    rw [hrec1, ← f3]
    exact this
  · intro i hi
    rw [hrec1] at hi
    have step1 := replaceStep_track_bid d (fun j => Command.cancelOrder j ∈ cs0) ht.1
    have hold2 : ∀ j ∈ (replaceStep d).1.bids, j = (replaceStep d).1.bid_id ∨
        (Command.cancelOrder j ∈ cs0 ∨ Command.cancelOrder j ∈ (replaceStep d).2) := by
      intro j hj
      rcases step1 j hj with h | h | h
      · exact Or.inl h
      · exact Or.inr (Or.inl h)
      · exact Or.inr (Or.inr h)
    have hpos2 : ∀ j ∈ (replaceStep d).1.bids, 0 < j := by
      rw [f1]
      exact hs.bids_pos
    rcases insertStep_track_bid d (replaceStep d).1 _ hold2 hpos2 i hi with h | h | h
    · exact Or.inl (hrec1 ▸ h)
    · exact Or.inr (List.mem_append.2 (Or.inl h))
    · exact Or.inr (List.mem_append.2 (Or.inr (hrec2 ▸ List.mem_append.2 (Or.inl h))))
  · intro i hi
    rw [hrec1] at hi
    have step1 := replaceStep_track_ask d (fun j => Command.cancelOrder j ∈ cs0) ht.2
    have hold2 : ∀ j ∈ (replaceStep d).1.asks, j = (replaceStep d).1.ask_id ∨
        (Command.cancelOrder j ∈ cs0 ∨ Command.cancelOrder j ∈ (replaceStep d).2) := by
      intro j hj
      rcases step1 j hj with h | h | h
      · exact Or.inl h
      · exact Or.inr (Or.inl h)
      · exact Or.inr (Or.inr h)
    have hpos2 : ∀ j ∈ (replaceStep d).1.asks, 0 < j := by
      rw [f2]
      exact hs.asks_pos
    rcases insertStep_track_ask d (replaceStep d).1 _ hold2 hpos2 i hi with h | h | h
    · exact Or.inl (hrec1 ▸ h)
    · exact Or.inr (List.mem_append.2 (Or.inl h))
    · exact Or.inr (List.mem_append.2 (Or.inr (hrec2 ▸ List.mem_append.2 (Or.inl h))))

theorem Inv_succ {s t : TraderState} (hs : Inv s) (hb : t.bids = s.bids)
    (ha : t.asks = s.asks) (hn : s.nextOrderId ≤ t.nextOrderId) : Inv t := by
  obtain ⟨pos0, bids_lt, asks_lt, bids_pos, asks_pos, disj⟩ := hs
  refine ⟨by omega, ?_, ?_, by rw [hb]; exact bids_pos, by rw [ha]; exact asks_pos,
    by rw [hb, ha]; exact disj⟩
  · rw [hb]
    intro i hi
    have := bids_lt i hi
    omega
  · rw [ha]
    intro i hi
    have := asks_lt i hi
    omega

theorem Inv_subset {s t : TraderState} (hs : Inv s)
    (hb : ∀ i ∈ t.bids, i ∈ s.bids) (ha : ∀ i ∈ t.asks, i ∈ s.asks)
    (hn : s.nextOrderId ≤ t.nextOrderId) : Inv t := by
  obtain ⟨pos0, bids_lt, asks_lt, bids_pos, asks_pos, disj⟩ := hs
  refine ⟨by omega, ?_, ?_, fun i hi => bids_pos i (hb i hi), fun i hi => asks_pos i (ha i hi),
    fun i hi hco => disj i (hb i hi) (ha i hco)⟩
  · intro i hi
    have := bids_lt i (hb i hi)
    omega
  · intro i hi
    have := asks_lt i (ha i hi)
    omega

theorem status_inv_track (s : TraderState) (id : Nat) (f r fees : Int) (hs : Inv s)
    (cs0 : List Command) (ht : TrackInv s cs0) :
    Inv (on_order_status_message s id f r fees) ∧
    (on_order_status_message s id f r fees).nextOrderId = s.nextOrderId ∧
    TrackInv (on_order_status_message s id f r fees) cs0 := by
  unfold on_order_status_message
  split_ifs with h1 h2 h3
  all_goals try dsimp only
  · refine ⟨Inv_subset hs (fun i hi => (mem_pyDiscard.1 hi).1)
      (fun i hi => (mem_pyDiscard.1 hi).1) (le_refl _), rfl, ?_, ?_⟩
    · intro i hi
      obtain ⟨hi1, hi2⟩ := mem_pyDiscard.1 hi
      rcases ht.1 i hi1 with h | h
      · exact absurd (h.trans h2.symm) hi2
      · exact Or.inr h
    · intro i hi
      obtain ⟨hi1, hi2⟩ := mem_pyDiscard.1 hi
      rcases ht.2 i hi1 with h | h
      · exact Or.inl h
      · exact Or.inr h
  · refine ⟨Inv_subset hs (fun i hi => (mem_pyDiscard.1 hi).1)
      (fun i hi => (mem_pyDiscard.1 hi).1) (le_refl _), rfl, ?_, ?_⟩
    · intro i hi
      obtain ⟨hi1, hi2⟩ := mem_pyDiscard.1 hi
      rcases ht.1 i hi1 with h | h
      · exact Or.inl h
      · exact Or.inr h
    · intro i hi
      obtain ⟨hi1, hi2⟩ := mem_pyDiscard.1 hi
      rcases ht.2 i hi1 with h | h
      · exact absurd (h.trans h3.symm) hi2
      · exact Or.inr h
  · refine ⟨Inv_subset hs (fun i hi => (mem_pyDiscard.1 hi).1)
      (fun i hi => (mem_pyDiscard.1 hi).1) (le_refl _), rfl, ?_, ?_⟩
    · intro i hi
      obtain ⟨hi1, hi2⟩ := mem_pyDiscard.1 hi
      rcases ht.1 i hi1 with h | h
      · exact Or.inl h
      · exact Or.inr h
    · intro i hi
      obtain ⟨hi1, hi2⟩ := mem_pyDiscard.1 hi
      rcases ht.2 i hi1 with h | h
      · exact Or.inl h
      · exact Or.inr h
  · exact ⟨hs, rfl, ht⟩

theorem step_inv_track (s : TraderState) (e : Event) (s1 : TraderState) (cs1 : List Command)
    (h : step s e = .ok (s1, cs1)) (hs : Inv s) (cs0 : List Command) (ht : TrackInv s cs0) :
    Inv s1 ∧ s.nextOrderId ≤ s1.nextOrderId ∧
    List.Pairwise (fun a b => a < b) (idsOf cs1) ∧
    (∀ i ∈ idsOf cs1, s.nextOrderId ≤ i ∧ i < s1.nextOrderId) ∧
    TrackInv s1 (cs0 ++ cs1) := by
  cases e with
  | orderBook inst seq ap av bp bv =>
    simp only [step] at h
    unfold on_order_book_update_message at h
    split_ifs at h
    · cases hb : bookSignals s ap av bp bv with
      | error er => rw [hb] at h; cases h
      | ok d =>
        rw [hb] at h
        injection h with h
        have hse : s1 = (reconcile d).1 ∧ cs1 = (reconcile d).2 := by
          rw [h]
          exact ⟨rfl, rfl⟩
        obtain ⟨hse1, hse2⟩ := hse
        subst hse1
        subst hse2
        obtain ⟨f1, f2, f3, f4, f5, -, -, -, -, -⟩ := bookSignals_frame s ap av bp bv d hb
        have hds : Inv d.s := Inv_of_frame hs f1 f2 f3
        have htd : TrackInv d.s cs0 := by
          constructor
          · intro i hi
            rw [f1] at hi
            rcases ht.1 i hi with h2 | h2
            · exact Or.inl (by rw [f4]; exact h2)
            · exact Or.inr h2
          · intro i hi
            rw [f2] at hi
            rcases ht.2 i hi with h2 | h2
            · exact Or.inl (by rw [f5]; exact h2)
            · exact Or.inr h2
        obtain ⟨a1, a2, a3, a4, a5⟩ := reconcile_inv_track d hds cs0 htd
        rw [f3] at a2 a4
        exact ⟨a1, a2, a3, a4, a5⟩
    · injection h with h
      injection h with ha hb2
      subst ha
      subst hb2
      refine ⟨hs, le_refl _, by simp [idsOf], by intro i hi; simp [idsOf] at hi, ?_⟩
      rw [List.append_nil]
      exact ht
    · injection h with h
      injection h with ha hb2
      subst ha
      subst hb2
      refine ⟨hs, le_refl _, by simp [idsOf], by intro i hi; simp [idsOf] at hi, ?_⟩
      rw [List.append_nil]
      exact ht
  | orderFilled id p v =>
    simp only [step] at h
    injection h with h
    unfold on_order_filled_message at h
    split_ifs at h with h1 h2
    · injection h with ha hb2
      subst ha
      subst hb2
      refine ⟨Inv_succ hs rfl rfl (by dsimp only; omega), by dsimp only; omega,
        by simp [idsOf], ?_, ?_, ?_⟩
      · intro i hi
        simp [idsOf] at hi
        subst hi
        dsimp only
        omega
      · intro i hi
        rcases ht.1 i hi with h2 | h2
        · exact Or.inl h2
        · exact Or.inr (List.mem_append.2 (Or.inl h2))
      · intro i hi
        rcases ht.2 i hi with h2 | h2
        · exact Or.inl h2
        · exact Or.inr (List.mem_append.2 (Or.inl h2))
    · injection h with ha hb2
      subst ha
      subst hb2
      refine ⟨Inv_succ hs rfl rfl (by dsimp only; omega), by dsimp only; omega,
        by simp [idsOf], ?_, ?_, ?_⟩
      · intro i hi
        simp [idsOf] at hi
        subst hi
        dsimp only
        omega
      · intro i hi
        rcases ht.1 i hi with h2 | h2
        · exact Or.inl h2
        · exact Or.inr (List.mem_append.2 (Or.inl h2))
      · intro i hi
        rcases ht.2 i hi with h2 | h2
        · exact Or.inl h2
        · exact Or.inr (List.mem_append.2 (Or.inl h2))
    · injection h with ha hb2
      subst ha
      subst hb2
      refine ⟨hs, le_refl _, by simp [idsOf], by intro i hi; simp [idsOf] at hi, ?_⟩
      rw [List.append_nil]
      exact ht
  | orderStatus id f r fees =>
    simp only [step] at h
    injection h with h
    injection h with ha hb2
    subst ha
    subst hb2
    obtain ⟨a1, a2, a3⟩ := status_inv_track s id f r fees hs cs0 ht
    refine ⟨a1, by omega, by simp [idsOf], by intro i hi; simp [idsOf] at hi, ?_⟩
    rw [List.append_nil]
    exact a3
  | errorMessage id =>
    simp only [step] at h
    injection h with h
    injection h with ha hb2
    subst ha
    subst hb2
    unfold on_error_message
    split_ifs with h1
    · obtain ⟨a1, a2, a3⟩ := status_inv_track s id 0 0 0 hs cs0 ht
      refine ⟨a1, by omega, by simp [idsOf], by intro i hi; simp [idsOf] at hi, ?_⟩
      rw [List.append_nil]
      exact a3
    · refine ⟨hs, le_refl _, by simp [idsOf], by intro i hi; simp [idsOf] at hi, ?_⟩
      rw [List.append_nil]
      exact ht
  | hedgeFilled id p v =>
    simp only [step] at h
    injection h with h
    injection h with ha hb2
    subst ha
    subst hb2
    refine ⟨hs, le_refl _, by simp [idsOf], by intro i hi; simp [idsOf] at hi, ?_⟩
    rw [List.append_nil]
    exact ht
  | tradeTicks inst seq ap av bp bv =>
    simp only [step] at h
    injection h with h
    injection h with ha hb2
    subst ha
    subst hb2
    refine ⟨hs, le_refl _, by simp [idsOf], by intro i hi; simp [idsOf] at hi, ?_⟩
    rw [List.append_nil]
    exact ht

theorem runE_inv_track (es : List Event) : ∀ (s : TraderState) (cs0 : List Command),
    Inv s → TrackInv s cs0 → ∀ (s1 : TraderState) (cs : List Command),
    runE s es = .ok (s1, cs) →
    Inv s1 ∧ s.nextOrderId ≤ s1.nextOrderId ∧
    List.Pairwise (fun a b => a < b) (idsOf cs) ∧
    (∀ i ∈ idsOf cs, s.nextOrderId ≤ i ∧ i < s1.nextOrderId) ∧
    TrackInv s1 (cs0 ++ cs) := by
  induction es with
  | nil =>
    intro s cs0 hs ht s1 cs h
    simp only [runE] at h
    injection h with h
    injection h with ha hb
    subst ha
    subst hb
    refine ⟨hs, le_refl _, by simp [idsOf], by intro i hi; simp [idsOf] at hi, ?_⟩
    rw [List.append_nil]
    exact ht
  | cons e es ih =>
    intro s cs0 hs ht s1 cs h
    simp only [runE] at h
    cases h1 : step s e with
    | error er => rw [h1] at h; cases h
    | ok p =>
      rw [h1] at h
      dsimp only at h
      cases h2 : runE p.1 es with
      | error er => rw [h2] at h; cases h
      | ok q =>
        rw [h2] at h
        dsimp only at h
        injection h with h
        injection h with ha hb
        obtain ⟨b1, b2, b3, b4, b5⟩ :=
          step_inv_track s e p.1 p.2 (by rw [h1]) hs cs0 ht
        obtain ⟨c1, c2, c3, c4, c5⟩ := ih p.1 (cs0 ++ p.2) b1 b5 q.1 q.2 (by rw [h2])
        subst ha
        refine ⟨c1, by omega, ?_, ?_, ?_⟩
        · rw [← hb, idsOf_append]
          refine List.pairwise_append.2 ⟨b3, c3, ?_⟩
          intro a hap b hbq
          have h4 := b4 a hap
          have h5 := c4 b hbq
          omega
        · rw [← hb, idsOf_append]
          intro i hi
          rcases List.mem_append.1 hi with hm | hm
          · have := b4 i hm
            omega
          · have := c4 i hm
            omega
        · rw [← hb, ← List.append_assoc]
          exact c5

theorem initState_inv : Inv initState :=
  ⟨Nat.one_pos, fun i hi => by simp [initState] at hi, fun i hi => by simp [initState] at hi,
   fun i hi => by simp [initState] at hi, fun i hi => by simp [initState] at hi,
   fun i hi => by simp [initState] at hi⟩

theorem initState_track : TrackInv initState [] :=
  ⟨fun i hi => by simp [initState] at hi, fun i hi => by simp [initState] at hi⟩

/-- C10: after any event trace from the initial state the bid and ask
tracking sets are disjoint, and the order ids consumed by insert and
hedge commands are strictly increasing along the trace, so no id is
ever assigned twice. -/
theorem C10_id_discipline (es : List Event) (s1 : TraderState) (cs : List Command)
    (h : runE initState es = .ok (s1, cs)) :
    (∀ i ∈ s1.bids, i ∉ s1.asks) ∧ List.Pairwise (fun a b => a < b) (idsOf cs) := by
  obtain ⟨a1, -, a3, -, -⟩ := runE_inv_track es initState [] initState_inv initState_track s1 cs h
  exact ⟨a1.disj, a3⟩

/-- C2 (amended): the tracking sets can exceed size 1 (see the
counterexample: a cancelled id lingers until its status or error
message arrives), but every tracked id other than the Working order of
its side has had a cancel issued for it, so at most one order per side
is ever live without a cancel in flight. -/
theorem C2_cancel_coverage (es : List Event) (s1 : TraderState) (cs : List Command)
    (h : runE initState es = .ok (s1, cs)) :
    (∀ i ∈ s1.bids, i = s1.bid_id ∨ Command.cancelOrder i ∈ cs) ∧
    (∀ i ∈ s1.asks, i = s1.ask_id ∨ Command.cancelOrder i ∈ cs) := by
  obtain ⟨-, -, -, -, a5⟩ := runE_inv_track es initState [] initState_inv initState_track s1 cs h
  rw [List.nil_append] at a5
  exact a5

/-- C5: in every reachable state, a fill for a tracked bid adds the
volume to the position, subtracts it from the bid pending volume and
sends exactly one sell hedge of the same volume at
MIN_BID_NEAREST_TICK; a fill for a tracked ask is the mirror image
with a buy hedge at MAX_ASK_NEAREST_TICK (reachability gives the
disjointness that makes the elif faithful); an untracked fill changes
nothing and sends nothing. -/
theorem C5_fill_handling (es : List Event) (s1 : TraderState) (cs : List Command)
    (h : runE initState es = .ok (s1, cs)) (id : Nat) (p v : Int) :
    (id ∈ s1.bids →
      on_order_filled_message s1 id p v =
        ({ s1 with position := s1.position + v, bid_ordered := s1.bid_ordered - v,
                   nextOrderId := s1.nextOrderId + 1 },
         [Command.hedgeOrder s1.nextOrderId Side.sell MIN_BID_NEAREST_TICK v])) ∧
    (id ∈ s1.asks →
      on_order_filled_message s1 id p v =
        ({ s1 with position := s1.position - v, ask_ordered := s1.ask_ordered - v,
                   nextOrderId := s1.nextOrderId + 1 },
         [Command.hedgeOrder s1.nextOrderId Side.buy MAX_ASK_NEAREST_TICK v])) ∧
    (id ∉ s1.bids → id ∉ s1.asks → on_order_filled_message s1 id p v = (s1, [])) := by
  obtain ⟨a1, -, -, -, -⟩ := runE_inv_track es initState [] initState_inv initState_track s1 cs h
  refine ⟨?_, ?_, ?_⟩
  · intro hid
    unfold on_order_filled_message
    rw [if_pos hid]
  · intro hid
    have hnb : id ∉ s1.bids := fun hb => a1.disj id hb hid
    unfold on_order_filled_message
    rw [if_neg hnb, if_pos hid]
  · intro hnb hna
    unfold on_order_filled_message
    rw [if_neg hnb, if_neg hna]

/-- Witness for C10: the first flat book update emits ids 1 and 2 in
order. -/
theorem C10_id_discipline_witness :
    runE initState [flatBook] = .ok (flatState1,
      [Command.insertOrder 1 Side.buy 10000 10 Lifespan.goodForDay,
       Command.insertOrder 2 Side.sell 30000 10 Lifespan.goodForDay]) ∧
    ((∀ i ∈ flatState1.bids, i ∉ flatState1.asks) ∧
     List.Pairwise (fun a b => a < b) (idsOf
       [Command.insertOrder 1 Side.buy 10000 10 Lifespan.goodForDay,
        Command.insertOrder 2 Side.sell 30000 10 Lifespan.goodForDay])) :=
  ⟨by simp [runE, flatStep1],
   C10_id_discipline [flatBook] flatState1
     [Command.insertOrder 1 Side.buy 10000 10 Lifespan.goodForDay,
      Command.insertOrder 2 Side.sell 30000 10 Lifespan.goodForDay]
     (by simp [runE, flatStep1])⟩

/-- Witness for C2 amended: after two flat book updates the ask set is
\x7b2, 3\x7d with ask 3 Working and cancel 2 already sent. -/
theorem C2_cancel_coverage_witness :
    runE initState [flatBook, flatBook] = .ok (flatState2,
      [Command.insertOrder 1 Side.buy 10000 10 Lifespan.goodForDay,
       Command.insertOrder 2 Side.sell 30000 10 Lifespan.goodForDay,
       Command.cancelOrder 2,
       Command.insertOrder 3 Side.sell 30000 10 Lifespan.goodForDay]) ∧
    ((∀ i ∈ flatState2.bids, i = flatState2.bid_id ∨ Command.cancelOrder i ∈
       [Command.insertOrder 1 Side.buy 10000 10 Lifespan.goodForDay,
        Command.insertOrder 2 Side.sell 30000 10 Lifespan.goodForDay,
        Command.cancelOrder 2,
        Command.insertOrder 3 Side.sell 30000 10 Lifespan.goodForDay]) ∧
     (∀ i ∈ flatState2.asks, i = flatState2.ask_id ∨ Command.cancelOrder i ∈
       [Command.insertOrder 1 Side.buy 10000 10 Lifespan.goodForDay,
        Command.insertOrder 2 Side.sell 30000 10 Lifespan.goodForDay,
        Command.cancelOrder 2,
        Command.insertOrder 3 Side.sell 30000 10 Lifespan.goodForDay])) :=
  ⟨by simp [runE, flatStep1, flatStep2],
   C2_cancel_coverage [flatBook, flatBook] flatState2
     [Command.insertOrder 1 Side.buy 10000 10 Lifespan.goodForDay,
      Command.insertOrder 2 Side.sell 30000 10 Lifespan.goodForDay,
      Command.cancelOrder 2,
      Command.insertOrder 3 Side.sell 30000 10 Lifespan.goodForDay]
     (by simp [runE, flatStep1, flatStep2])⟩

/-- Witness for C5: the fill of tracked bid 1 after one flat book
update. -/
theorem C5_fill_handling_witness :
    runE initState [flatBook] = .ok (flatState1,
      [Command.insertOrder 1 Side.buy 10000 10 Lifespan.goodForDay,
       Command.insertOrder 2 Side.sell 30000 10 Lifespan.goodForDay]) ∧
    ((1 ∈ flatState1.bids →
      on_order_filled_message flatState1 1 10000 10 =
        ({ flatState1 with position := flatState1.position + 10,
                           bid_ordered := flatState1.bid_ordered - 10,
                           nextOrderId := flatState1.nextOrderId + 1 },
         [Command.hedgeOrder flatState1.nextOrderId Side.sell MIN_BID_NEAREST_TICK 10])) ∧
     (1 ∈ flatState1.asks →
      on_order_filled_message flatState1 1 10000 10 =
        ({ flatState1 with position := flatState1.position - 10,
                           ask_ordered := flatState1.ask_ordered - 10,
                           nextOrderId := flatState1.nextOrderId + 1 },
         [Command.hedgeOrder flatState1.nextOrderId Side.buy MAX_ASK_NEAREST_TICK 10])) ∧
     (1 ∉ flatState1.bids → 1 ∉ flatState1.asks →
      on_order_filled_message flatState1 1 10000 10 = (flatState1, []))) :=
  ⟨by simp [runE, flatStep1],
   C5_fill_handling [flatBook] flatState1
     [Command.insertOrder 1 Side.buy 10000 10 Lifespan.goodForDay,
      Command.insertOrder 2 Side.sell 30000 10 Lifespan.goodForDay]
     (by simp [runE, flatStep1]) 1 10000 10⟩

theorem lastN_of_le {n : Nat} {l : List Int} (h : l.length ≤ n) : lastN n l = l := by
  unfold lastN
  rw [Nat.sub_eq_zero_of_le h]
  exact List.drop_zero l

theorem length_lastN (n : Nat) (l : List Int) : (lastN n l).length = min n l.length := by
  simp [lastN]
  omega

theorem truncHist_lastN (p : List Int) (m : Int) :
    truncHist (lastN 15 p ++ [m]) = lastN 15 (p ++ [m]) := by
  unfold truncHist
  by_cases hp : p.length ≤ 14
  · rw [lastN_of_le (by omega)]
    rw [if_neg (by simp; omega)]
    exact (lastN_of_le (by simp; omega)).symm
  · have h15 : (lastN 15 p).length = 15 := by rw [length_lastN]; omega
    rw [if_pos (by simp [h15])]
    unfold lastN
    simp only [List.length_append, List.length_drop, List.length_singleton, h15]
    rw [List.drop_append_of_le_length (by simp <;> omega),
      List.drop_append_of_le_length (by simp <;> omega), List.drop_drop]
    have hidx : p.length - 15 + (p.length - (p.length - 15) + 1 - 15) = p.length + 1 - 15 := by
      omega
    rw [hidx]

theorem getD_lastN (n : Nat) (l : List Int) (k : Nat) (d : Int) :
    (lastN n l).getD k d = l.getD (l.length - n + k) d := by
  unfold lastN
  simp [List.getD_eq_getElem?_getD, List.getElem?_drop]

theorem posPart_nonneg (d : Int) : 0 ≤ if d > 0 then d else 0 := by
  split_ifs <;> omega

theorem deltas_length (l : List Int) : (deltas l).length = l.length - 1 := by
  simp [deltas]

theorem deltas_concat (p : List Int) (m : Int) (hp : p ≠ []) :
    deltas (p ++ [m]) = deltas p ++ [m - p.getD (p.length - 1) 0] := by
  induction p with
  | nil => simp at hp
  | cons a p ih =>
    cases p with
    | nil => simp [deltas]
    | cons b p2 =>
      have h2 := ih (by simp)
      have hstep : ∀ (x : List Int), deltas (a :: b :: x) = (b - a) :: deltas (b :: x) :=
        fun x => rfl
      rw [show (a :: b :: p2) ++ [m] = a :: b :: (p2 ++ [m]) from rfl, hstep,
        show b :: (p2 ++ [m]) = (b :: p2) ++ [m] from rfl, h2, hstep]
      rfl

theorem altGL_of_le (mids : List Int) (h : mids.length ≤ 11) : altGL mids = altSeed mids := by
  unfold altGL
  rw [List.take_of_length_le h,
    List.drop_eq_nil_of_le (by rw [deltas_length]; omega)]
  rfl

theorem altGL_concat (p : List Int) (m : Int) (hp : 11 ≤ p.length) :
    altGL (p ++ [m]) = wilderSmooth (altGL p) (m - p.getD (p.length - 1) 0) := by
  unfold altGL
  rw [List.take_append_of_le_length (by omega),
    deltas_concat p m (by intro he; rw [he] at hp; simp at hp),
    List.drop_append_of_le_length (by rw [deltas_length]; omega),
    List.foldl_append]
  rfl

theorem altSeed_fst_nonneg (mids : List Int) : 0 ≤ (altSeed mids).1 := by
  unfold altSeed
  dsimp only
  rw [qdiv_eq, qi_eq, qi_eq]
  apply div_nonneg
  · refine Int.cast_nonneg.2 (List.sum_nonneg ?_)
    intro x hx
    obtain ⟨d, -, rfl⟩ := List.mem_map.1 hx
    exact posPart_nonneg d
  · norm_num

set_option maxHeartbeats 1600000 in
theorem feedMid_inv (p : List Int) (st : RsiSt) (m : Int) (st1 : RsiSt) (r : ℚ)
    (hp : RsiInv p st) (h : feedMid st m = .ok (st1, r)) :
    RsiInv (p ++ [m]) st1 ∧ r = rsiSpec (p ++ [m]) := by
  obtain ⟨hh, hsent, hfull⟩ := hp
  unfold feedMid at h
  rw [hh, truncHist_lastN] at h
  by_cases h9 : p.length ≤ 9
  · have hLlen : (lastN 15 (p ++ [m])).length = p.length + 1 := by
      rw [length_lastN]
      simp
      omega
    unfold rsiUpdate at h
    dsimp only at h
    rw [if_neg (by rw [hLlen]; omega)] at h
    dsimp only at h
    injection h with h
    injection h with ha hb
    subst ha
    subst hb
    refine ⟨⟨rfl, fun _ => hsent (by omega), fun hk => absurd hk (by simp; omega)⟩, ?_⟩
    unfold rsiSpec
    rw [if_pos (by simp; omega)]
  · by_cases h10 : p.length = 10
    · rcases p with _ | ⟨a0, p⟩
      · simp at h10
      rcases p with _ | ⟨a1, p⟩
      · simp at h10
      rcases p with _ | ⟨a2, p⟩
      · simp at h10
      rcases p with _ | ⟨a3, p⟩
      · simp at h10
      rcases p with _ | ⟨a4, p⟩
      · simp at h10
      rcases p with _ | ⟨a5, p⟩
      · simp at h10
      rcases p with _ | ⟨a6, p⟩
      · simp at h10
      rcases p with _ | ⟨a7, p⟩
      · simp at h10
      rcases p with _ | ⟨a8, p⟩
      · simp at h10
      rcases p with _ | ⟨a9, p⟩
      · simp at h10
      rcases p with _ | ⟨a10, p⟩
      swap
      · simp at h10
      have hg : st.gain = -1 := (hsent (by simp)).1
      rw [show lastN 15 ([a0, a1, a2, a3, a4, a5, a6, a7, a8, a9] ++ [m]) = [a0, a1, a2, a3, a4, a5, a6, a7, a8, a9, m] from rfl] at h
      rw [hg] at h
      dsimp only at h
      rw [show (rsiUpdate (-1) st.loss [a0, a1, a2, a3, a4, a5, a6, a7, a8, a9, m] m) =
          (if (altSeed ([a0, a1, a2, a3, a4, a5, a6, a7, a8, a9] ++ [m])).2 = qi 0 then (.error .divByZero : Except Err _)
           else .ok ((altSeed ([a0, a1, a2, a3, a4, a5, a6, a7, a8, a9] ++ [m])).1, (altSeed ([a0, a1, a2, a3, a4, a5, a6, a7, a8, a9] ++ [m])).2,
             rsiOf (altSeed ([a0, a1, a2, a3, a4, a5, a6, a7, a8, a9] ++ [m])),
             decide (rsiOf (altSeed ([a0, a1, a2, a3, a4, a5, a6, a7, a8, a9] ++ [m])) > qi 75),
             decide (¬rsiOf (altSeed ([a0, a1, a2, a3, a4, a5, a6, a7, a8, a9] ++ [m])) > qi 75 ∧
               rsiOf (altSeed ([a0, a1, a2, a3, a4, a5, a6, a7, a8, a9] ++ [m])) < qi 25)))
        from rfl] at h
      split at h
      · try dsimp only at h
        cases h
      · rename_i hz
        try dsimp only at h
        injection h with h
        injection h with ha hb
        subst ha
        subst hb
        split at hz
        · cases hz
        · rename_i hcond
          injection hz with hz
          subst hz
          have haltGL : altGL ([a0, a1, a2, a3, a4, a5, a6, a7, a8, a9] ++ [m]) =
              altSeed ([a0, a1, a2, a3, a4, a5, a6, a7, a8, a9] ++ [m]) :=
            altGL_of_le _ (by simp)
          dsimp only
          refine ⟨⟨rfl, fun hk => absurd hk (by simp), fun _ => ?_⟩, ?_⟩
          · refine ⟨altSeed_fst_nonneg _, by rw [haltGL], by rw [haltGL], ?_⟩
            intro h0
            exact hcond (h0.trans (by decide))
          · unfold rsiSpec
            rw [if_neg (by simp)]
            unfold rsiOf
            rw [haltGL]

    · have h11 : 11 ≤ p.length := by omega
      obtain ⟨hg0, hgE, hlE, hlne⟩ := hfull h11
      have ekey : pyGet (lastN 15 (p ++ [m])) (-2) = p.getD (p.length - 1) 0 := by
        unfold pyGet
        rw [if_pos (by omega)]
        have hL : (lastN 15 (p ++ [m])).length = min 15 (p.length + 1) := by
          rw [length_lastN]
          simp
        have h2 : (((lastN 15 (p ++ [m])).length : Int) + (-2)).toNat =
            (lastN 15 (p ++ [m])).length - 2 := by omega
        rw [h2, getD_lastN]
        have hidx : (p ++ [m]).length - 15 + ((lastN 15 (p ++ [m])).length - 2) =
            p.length - 1 := by
          rw [hL]
          simp only [List.length_append, List.length_singleton]
          omega
        rw [hidx]
        exact List.getD_append p [m] 0 (p.length - 1) (by omega)
      have haltU : altGL (p ++ [m]) = wilderSmooth (altGL p) (m - p.getD (p.length - 1) 0) :=
        altGL_concat p m h11
      have hglp : altGL p = (st.gain, st.loss) := by
        rw [hgE, hlE]
      have hstep : rsiUpdate st.gain st.loss (lastN 15 (p ++ [m])) m =
          (if (wilderSmooth (st.gain, st.loss) (m - p.getD (p.length - 1) 0)).2 = qi 0
           then (.error .divByZero : Except Err (ℚ × ℚ × ℚ × Bool × Bool))
           else .ok ((wilderSmooth (st.gain, st.loss) (m - p.getD (p.length - 1) 0)).1,
             (wilderSmooth (st.gain, st.loss) (m - p.getD (p.length - 1) 0)).2,
             rsiOf (wilderSmooth (st.gain, st.loss) (m - p.getD (p.length - 1) 0)),
             decide (rsiOf (wilderSmooth (st.gain, st.loss) (m - p.getD (p.length - 1) 0)) >
               qi 75),
             decide (¬rsiOf (wilderSmooth (st.gain, st.loss) (m - p.getD (p.length - 1) 0)) >
                 qi 75 ∧
               rsiOf (wilderSmooth (st.gain, st.loss) (m - p.getD (p.length - 1) 0)) <
                 qi 25))) := by
        unfold rsiUpdate
        rw [if_pos (show (lastN 15 (p ++ [m])).length > 10 by
          rw [length_lastN]
          simp only [List.length_append, List.length_singleton]
          omega)]
        rw [if_neg (show ¬(st.gain = qi (-1)) from
          fun heq => absurd (heq ▸ hg0) (by decide))]
        rw [ekey]
        rfl
      dsimp only at h
      rw [hstep] at h
      split at h
      · try dsimp only at h
        cases h
      · rename_i hz
        try dsimp only at h
        injection h with h
        injection h with ha hb
        subst ha
        subst hb
        split at hz
        · cases hz
        · rename_i hcond
          injection hz with hz
          subst hz
          dsimp only
          refine ⟨⟨rfl, fun hk => absurd hk (by simp; omega), fun _ => ?_⟩, ?_⟩
          · refine ⟨?_, by rw [haltU, hglp], by rw [haltU, hglp], ?_⟩
            · unfold wilderSmooth
              dsimp only
              rw [qdiv_eq, qadd_eq, qmul_eq]
              apply div_nonneg
              · apply add_nonneg
                · apply mul_nonneg hg0
                  rw [qi_eq]
                  norm_num
                · split_ifs with hd
                  · rw [qi_eq]
                    exact_mod_cast le_of_lt hd
                  · rw [qi_eq]
                    norm_num
              · rw [qi_eq]
                norm_num
            · intro h0
              exact hcond (h0.trans (by decide))
          · unfold rsiSpec
            rw [if_neg (by simp; omega)]
            unfold rsiOf
            rw [haltU, hglp]

theorem runRsi_inv (ms : List Int) : ∀ (p : List Int) (st : RsiSt) (r0 : ℚ),
    RsiInv p st → ∀ (q : RsiSt × ℚ), runRsi (st, r0) ms = .ok q →
    RsiInv (p ++ ms) q.1 ∧ q.2 = (if ms.isEmpty then r0 else rsiSpec (p ++ ms)) := by
  induction ms with
  | nil =>
    intro p st r0 hp q h
    simp only [runRsi] at h
    injection h with h
    subst h
    rw [List.append_nil]
    exact ⟨hp, rfl⟩
  | cons m ms ih =>
    intro p st r0 hp q h
    simp only [runRsi] at h
    cases hf : feedMid st m with
    | error e => rw [hf] at h; cases h
    | ok q1 =>
      rw [hf] at h
      dsimp only at h
      obtain ⟨h1, h2⟩ := feedMid_inv p st m q1.1 q1.2 hp (by rw [hf])
      obtain ⟨h3, h4⟩ := ih (p ++ [m]) q1.1 q1.2 h1 q (by rw [Prod.mk.eta]; exact h)
      constructor
      · rw [show p ++ m :: ms = (p ++ [m]) ++ ms by simp]
        exact h3
      · rw [if_neg (by simp)]
        cases ms with
        | nil =>
          simp only [List.isEmpty_nil, if_true] at h4
          rw [h4, h2]
        | cons m2 ms2 =>
          rw [if_neg (by simp)] at h4
          rw [h4, List.append_assoc]
          rfl

/-- C6 (amended): for a series of at least 11 mids the code's RSI state
equals the reference computation with the amended seed: average gain
and loss seeded from the differences of the 11th sample against each
of its 10 predecessors (altSeed), then Wilder-smoothed with each later
consecutive delta (altGL); the returned RSI is the standard formula on
that pair.  The claim's consecutive-delta seed is refuted by the
counterexample. -/
theorem C6_rsi_alt (mids : List Int) (q : RsiSt × ℚ) (hlen : 11 ≤ mids.length)
    (h : codeRsi mids = .ok q) :
    q.1.gain = (altGL mids).1 ∧ q.1.loss = (altGL mids).2 ∧ (altGL mids).2 ≠ 0 ∧
    q.2 = rsiOf (altGL mids) := by
  unfold codeRsi at h
  have h0 : RsiInv [] ⟨[], qi (-1), qi (-1)⟩ :=
    ⟨rfl, fun _ => ⟨by decide, by decide⟩, fun hk => absurd hk (by simp)⟩
  obtain ⟨hinv, hr⟩ := runRsi_inv mids [] ⟨[], qi (-1), qi (-1)⟩ (qi (-1)) h0 q h
  rw [List.nil_append] at hinv hr
  obtain ⟨-, -, hf2⟩ := hinv
  obtain ⟨hg0, hgE, hlE, hlne⟩ := hf2 hlen
  have hne : ¬(mids.isEmpty = true) := by
    intro he
    rw [List.isEmpty_iff] at he
    rw [he] at hlen
    simp at hlen
  refine ⟨hgE, hlE, ?_, ?_⟩
  · rw [← hlE]
    exact hlne
  · rw [hr, if_neg hne]
    unfold rsiSpec
    rw [if_neg (by omega)]

/-- Witness for C6 amended: the 11 sample counterexample series, where
the code and the amended reference both give RSI 90. -/
theorem C6_rsi_alt_witness :
    (11 ≤ C6series.length ∧
     codeRsi C6series = .ok (⟨C6series, qi 9, qi 1⟩, qi 90)) ∧
    ((⟨C6series, qi 9, qi 1⟩ : RsiSt).gain = (altGL C6series).1 ∧
     (⟨C6series, qi 9, qi 1⟩ : RsiSt).loss = (altGL C6series).2 ∧
     (altGL C6series).2 ≠ 0 ∧
     (qi 90 : ℚ) = rsiOf (altGL C6series)) :=
  ⟨⟨by decide, by decide⟩,
   C6_rsi_alt C6series (⟨C6series, qi 9, qi 1⟩, qi 90) (by decide) (by decide)⟩

end AutoTrader
